import Mathlib

/-!
Verification development for the meeting-note-taker service.

Shallow embedding of the session store (`src/services/meetingService.js`,
in-memory mode), the webhook event reducer (`src/routes/webhookRoutes.js`),
the session-creation controller (`addMeeting`), the basic note generator
(`src/services/noteGenerator.js`), and the database list ordering
(`DatabaseService.getAllMeetings`).

Modelling conventions:
* JavaScript strings are Lean `String`s; character-level text processing in
  the note generator works on `List Char`.
* Nullable / possibly-absent JS values are `Option`s; a JS falsy string
  (absent, `null`, `undefined` or `""`) is modelled as described at each use.
* `Date.now()` / `new Date()` are ambient clock effects: records carry a
  `createdAt : Nat` tick supplied by the caller, and the pure `updatedAt`
  bump (which has no effect on any other field) is omitted.
* Network effects (axios download, Nylas transcript fetch, bot dispatch)
  are injected oracles returning `Except`; `.error` models a thrown
  exception, `.ok none` models a falsy response body.
* The store is the in-memory `Map` of `meetingService.js`: a list of
  meetings in insertion order (= creation order); `Map.get` is first-match
  lookup and `Map.set` replaces the entry with the key in place.
-/

/-- The `progress` field of a meeting record: `{message, percentage}`. -/
structure Progress where
  message : String
  percentage : Nat
deriving DecidableEq, Repr

/-- The `media` object of a `notetaker.media` event payload. -/
structure Media where
  transcript : Option String := none
  recording : Option String := none
  summary : Option String := none
  action_items : Option String := none
deriving DecidableEq, Repr

/-- One transcript segment (Nylas format: `speaker`, `text`, `end` in ms;
legacy format: `end_time` in seconds).  `endMs` models the JS field `end`
(a Lean keyword). -/
structure Segment where
  speaker : Option String := none
  text : Option (List Char) := none
  endMs : Option Nat := none
  end_time : Option Nat := none
deriving DecidableEq, Repr

/-- Transcript document from Nylas: `{transcript: [...segments], type}`. -/
structure Transcript where
  transcript : List Segment
  type : Option String := none
deriving DecidableEq, Repr

/-- Generated note (the object built by `generateBasicNote`).  `generatedAt`
(a clock read) is omitted.  `summaryUrl` / `actionItemsUrl` are added by the
media-available handler's spread `{...note, summaryUrl, actionItemsUrl}`. -/
structure NoteVal where
  summary : List Char
  keyPoints : List (List Char)
  participants : List String
  duration : Nat
  wordCount : Nat := 0
  transcriptType : String := "unknown"
  generatedBy : String := "basic"
  summaryUrl : Option String := none
  actionItemsUrl : Option String := none
deriving DecidableEq, Repr

/-- A session record as stored by `meetingService.createMeeting`. -/
structure Meeting where
  id : String
  meetingUrl : String
  grantId : String
  status : String
  createdAt : Nat
  notetakerId : Option String := none
  transcript : Option Transcript := none
  recording : Option String := none
  note : Option NoteVal := none
  progress : Progress
deriving DecidableEq, Repr

/-- The in-memory store: meetings in `Map` insertion order, i.e. creation
order, oldest first. -/
abbrev State := List Meeting

/-- A partial update object passed to `meetingService.updateMeeting`.
`some v` means the JS object has the field with value `v`; `none` means the
field is absent (so the spread keeps the old value).  `recording` is doubly
optional because `handleMediaAvailable` passes `recording: media.recording`
which may be explicitly `undefined` and then clears the stored value. -/
structure Updates where
  status : Option String := none
  notetakerId : Option String := none
  transcript : Option Transcript := none
  recording : Option (Option String) := none
  note : Option NoteVal := none
  progress : Option Progress := none
  grantId : Option String := none
deriving DecidableEq, Repr

/-- The object spread `{...meeting, ...updates}` of `updateMeeting`. -/
def mergeUpd (m : Meeting) (u : Updates) : Meeting :=
  { m with
    status := u.status.getD m.status
    notetakerId := match u.notetakerId with
      | some v => some v
      | none => m.notetakerId
    transcript := match u.transcript with
      | some t => some t
      | none => m.transcript
    recording := u.recording.getD m.recording
    note := match u.note with
      | some n => some n
      | none => m.note
    progress := u.progress.getD m.progress
    grantId := u.grantId.getD m.grantId }

/-- The `meetings.get(meetingId)`: first record with the given id. -/
def getMeeting (meetingId : String) (st : State) : Option Meeting :=
  st.find? (fun m => m.id == meetingId)

/-- The `meetings.set(id, v)`: replace the entry with `v.id` in place, or append
if absent (a `Map` keeps the position of an existing key). -/
def setMeeting (v : Meeting) : State → State
  | [] => [v]
  | m :: rest => if m.id == v.id then v :: rest else m :: setMeeting v rest

/-- The `meetingService.updateMeeting`: returns `null` and leaves the store
untouched for an unknown id, otherwise spreads the updates over the record
and stores it, returning the updated record. -/
def updateMeeting (meetingId : String) (updates : Updates) (st : State) :
    Option Meeting × State :=
  match getMeeting meetingId st with
  | none => (none, st)
  | some m =>
    let updated := mergeUpd m updates
    (some updated, setMeeting updated st)

/-- Replace a meeting's `progress` field (the mutation done by
`meetingService.updateProgress`). -/
def setProg (message : String) (percentage : Nat) (m : Meeting) : Meeting :=
  { m with progress := ⟨message, percentage⟩ }

/-- The `meetingService.updateProgress`: no effect for an unknown id. -/
def updateProgress (meetingId : String) (message : String) (percentage : Nat)
    (st : State) : State :=
  match getMeeting meetingId st with
  | none => st
  | some m => setMeeting (setProg message percentage m) st

/-- The `meetingService.getAllMeetings` (in-memory): `Array.from(map.values())`,
the stored list in insertion order. -/
def getAllMeetings (st : State) : List Meeting := st

/-- The `meetingService.findByNotetakerId`: first meeting whose `notetakerId`
strictly equals the given (non-null) id. -/
def findByNotetakerId (notetakerId : String) (st : State) : Option Meeting :=
  st.find? (fun m => m.notetakerId == some notetakerId)

/-- The `meetingService.createMeeting`: the fresh record.  The generated id and
the clock tick are parameters (`Date.now()` and `Math.random` are ambient). -/
def createMeeting (meetingUrl grantId : String) (freshId : String) (now : Nat) :
    Meeting :=
  { id := freshId
    meetingUrl := meetingUrl
    grantId := grantId
    status := "pending"
    createdAt := now
    notetakerId := none
    transcript := none
    recording := none
    note := none
    progress := ⟨"Meeting link added. Waiting to join...", 0⟩ }

/-! ### Character/string utilities mirroring the JS operations -/

/-- ASCII lower-casing, the effect of `String.prototype.toLowerCase` on the
ASCII range (transcript keywords and the trigger characters are ASCII). -/
def jsToLower (c : Char) : Char :=
  if 65 ≤ c.toNat ∧ c.toNat ≤ 90 then Char.ofNat (c.toNat + 32) else c

/-- Whitespace class of the JS regexes `\s` and of `String.prototype.trim`
for the characters that occur here. -/
def isWsChar (c : Char) : Bool :=
  c == ' ' || c == '\t' || c == '\n' || c == '\r'

/-- The `trim`: drop whitespace from both ends. -/
def jsTrim (s : List Char) : List Char :=
  ((s.dropWhile isWsChar).reverse.dropWhile isWsChar).reverse

/-- Does `s` start with `pat`? (used to implement `String.includes`). -/
def listStartsWith : List Char → List Char → Bool
  | _, [] => true
  | [], _ :: _ => false
  | a :: s, b :: p => a == b && listStartsWith s p

/-- The `String.prototype.includes`: some suffix of `s` starts with `pat`. -/
def listContains : List Char → List Char → Bool
  | s, pat =>
    listStartsWith s pat ||
      match s with
      | [] => false
      | _ :: rest => listContains rest pat

/-- The `includes` on Lean `String`s. -/
def strContains (s pat : String) : Bool :=
  listContains s.toList pat.toList

/-- The `split` on a single-character class: cut at every character satisfying
`p` (keeping empty pieces). -/
def splitSingle (p : Char → Bool) : List Char → List (List Char)
  | [] => [[]]
  | c :: rest =>
    if p c then [] :: splitSingle p rest
    else
      match splitSingle p rest with
      | [] => [[c]]
      | h :: t => (c :: h) :: t

/-- Drop the empty pieces that sit strictly between two delimiters, keeping
the first and last pieces; together with `splitSingle` this is exactly the
JS `split(/[X]+/)` semantics (a run of delimiters is one boundary, but a
leading/trailing delimiter still yields an empty piece). -/
def dropInnerEmptyAux : List (List Char) → List (List Char)
  | [] => []
  | [x] => [x]
  | x :: rest => if x.isEmpty then dropInnerEmptyAux rest
                 else x :: dropInnerEmptyAux rest

/-- See `dropInnerEmptyAux`: the head piece is always kept. -/
def dropInnerEmpty : List (List Char) → List (List Char)
  | [] => []
  | x :: rest => x :: dropInnerEmptyAux rest

/-- JS `split(/[X]+/)` where `X` is the character class decided by `p`. -/
def jsSplit (p : Char → Bool) (s : List Char) : List (List Char) :=
  dropInnerEmpty (splitSingle p s)

/-- The sentence delimiters of the key-point extraction: `[.!?]`. -/
def isSentenceDelim (c : Char) : Bool :=
  c == '.' || c == '!' || c == '?'

/-- The `Math.round(ms / 1000)` on a non-negative integer millisecond count. -/
def jsRoundDiv1000 (ms : Nat) : Nat := (ms + 500) / 1000

/-! ### Note generator (`noteGenerator.js`, basic strategy) -/

/-- The `Array.from(new Set(...))`: first-occurrence deduplication of the
speaker labels. -/
def collectParticipants (segments : List Segment) : List String :=
  segments.foldl
    (fun acc s =>
      match s.speaker with
      | some sp => if sp ∈ acc then acc else acc ++ [sp]
      | none => acc)
    []

/-- The full text of a transcript: segment texts joined by one space, then
trimmed. -/
def fullTextOf (segments : List Segment) : List Char :=
  jsTrim (List.intercalate [' '] (segments.map (fun s => s.text.getD [])))

/-- The candidate sentences of the key-point extraction:
`fullText.split(/[.!?]+/).filter(s => s.trim().length > 20)`. -/
def sentencesOf (fullText : List Char) : List (List Char) :=
  (jsSplit isSentenceDelim fullText).filter (fun s => (jsTrim s).length > 20)

/-- The key-point trigger predicate of `generateBasicNote`, verbatim from the
source: the lower-cased sentence contains a question mark or one of the
keywords. -/
def keypointPred (s : List Char) : Bool :=
  let lower := s.map jsToLower
  listContains lower "?".toList ||
    listContains lower "important".toList ||
    listContains lower "action".toList ||
    listContains lower "decision".toList ||
    listContains lower "next".toList

/-- The `duration` computation: `end` (ms, JS-truthy) wins, else `end_time`
(seconds), else 0. -/
def durationOf (segments : List Segment) : Nat :=
  match segments.getLast? with
  | none => 0
  | some lastSegment =>
    match lastSegment.endMs with
    | some e =>
      if e ≠ 0 then jsRoundDiv1000 e
      else match lastSegment.end_time with
        | some et => et
        | none => 0
    | none =>
      match lastSegment.end_time with
      | some et => et
      | none => 0

/-- The `generateBasicNote` (`noteGenerator.js` lines 214-275; identical logic in
the other copies of the generator).  The `generatedAt` clock read is
omitted. -/
def generateBasicNote (t : Transcript) : NoteVal :=
  let segments := t.transcript
  if segments.isEmpty then
    { summary := "No transcript available.".toList
      keyPoints := []
      participants := []
      duration := 0 }
  else
    let fullText := fullTextOf segments
    let participants := collectParticipants segments
    let summary :=
      if fullText.length > 200 then fullText.take 200 ++ "...".toList
      else fullText
    let sentences := sentencesOf fullText
    let keyPoints := ((sentences.filter keypointPred).take 5).map jsTrim
    { summary := summary
      keyPoints :=
        if keyPoints.isEmpty then ["No specific key points identified.".toList]
        else keyPoints
      participants := participants
      duration := durationOf segments
      wordCount := (jsSplit isWsChar fullText).length
      transcriptType := t.type.getD "unknown"
      generatedBy := "basic" }

/-- The `generateNote` as exercised by the webhook path: with no OpenAI key
configured the generator always takes the basic strategy (the enriched
strategy is an external LLM call, excluded as a collaborator). -/
def generateNote (t : Transcript) : NoteVal := generateBasicNote t

/-! ### Webhook event payloads and the reducer (`webhookRoutes.js`) -/

/-- Fields that can sit either on `data` itself or nested under
`data.object` (`notetakerData = data.object || data`). -/
structure NData where
  id : Option String := none
  grant_id : Option String := none
  meeting_state : Option String := none
  state : Option String := none
  status : Option String := none
  media : Option Media := none
deriving DecidableEq, Repr

/-- The `data` member of a webhook event.  `flat` holds the fields read
directly off `data`; `notetaker_id` and `grant_obj_id` model the extra flat
fallbacks `data.notetaker_id` and `data.grant?.id`. -/
structure EventData where
  object : Option NData := none
  flat : NData := {}
  notetaker_id : Option String := none
  grant_obj_id : Option String := none
deriving DecidableEq, Repr

/-- A webhook event `{type, data}`. -/
structure Event where
  type : String
  data : EventData
deriving DecidableEq, Repr

/-- The `const notetakerData = data.object || data`. -/
def notetakerData (d : EventData) : NData := d.object.getD d.flat

/-- The `notetakerData.id || data.notetaker_id || data.id`. -/
def evNotetakerId (d : EventData) : Option String :=
  (notetakerData d).id <|> d.notetaker_id <|> d.flat.id

/-- The `notetakerData.grant_id || data.grant_id || data.grant?.id`. -/
def evGrantId (d : EventData) : Option String :=
  (notetakerData d).grant_id <|> d.flat.grant_id <|> d.grant_obj_id

/-- The injected network effects of the reducer: the axios download of a
transcript URL and `nylasService.getTranscript(grantId, notetakerId)`.
`.error` is a thrown/rejected call, `.ok none` a falsy response body. -/
structure Oracles where
  fetchTranscriptUrl : String → Except Unit (Option Transcript)
  getTranscript : Option String → String → Except Unit (Option Transcript)

/-- The `updateMeetingByNotetakerId` (`webhookRoutes.js` lines 420-445): resolve
by bot id; if that fails and the updates carry both a notetaker id and a
grant id, fall back to the first meeting of that grant with no bot id yet.
A `none` notetaker id hits the early return. -/
def updateMeetingByNotetakerId (notetakerId : Option String) (updates : Updates)
    (st : State) : State :=
  match notetakerId with
  | none => st
  | some nid =>
    match findByNotetakerId nid st with
    | some meeting => (updateMeeting meeting.id updates st).2
    | none =>
      match updates.notetakerId, updates.grantId with
      | some _, some g =>
        match st.find? (fun m => m.notetakerId == none && m.grantId == g) with
        | some meetingByGrant => (updateMeeting meetingByGrant.id updates st).2
        | none => st
      | _, _ => st

/-- The `updateProgressByNotetakerId` (lines 447-461). -/
def updateProgressByNotetakerId (notetakerId : Option String) (message : String)
    (percentage : Nat) (st : State) : State :=
  match notetakerId with
  | none => st
  | some nid =>
    match findByNotetakerId nid st with
    | some meeting => updateProgress meeting.id message percentage st
    | none => st

/-- The `handleMeetingCompleted` (lines 463-495): resolve by bot id, set progress
to 90, fetch the transcript through the dispatch client; on success persist
transcript + note (note sets status `completed`) and progress 100; on a
thrown fetch record the error in progress at 0; on a falsy transcript do
nothing further.  A JS `undefined` bot id never matches a stored record
(`null !== undefined`). -/
def handleMeetingCompleted (o : Oracles) (notetakerId grantId : Option String)
    (st : State) : State :=
  match notetakerId with
  | none => st
  | some nid =>
    match findByNotetakerId nid st with
    | none => st
    | some meeting =>
      let st1 := updateProgress meeting.id "Meeting completed. Generating note..." 90 st
      match o.getTranscript grantId nid with
      | .error _ => updateProgress meeting.id "Error generating note" 0 st1
      | .ok none => st1
      | .ok (some transcript) =>
        let st2 := (updateMeeting meeting.id { transcript := some transcript } st1).2
        let note := generateNote transcript
        let st3 := (updateMeeting meeting.id
          { note := some note, status := some "completed" } st2).2
        updateProgress meeting.id "Note generated successfully!" 100 st3

/-- The `handleMeetingStateChange` (lines 170-263): early return without a bot
id, then the `meeting_state` transition table.  An absent state falls into
the default branch, whose message renders the JS `undefined`. -/
def handleMeetingStateChange (notetakerId : Option String)
    (meetingState : Option String) (st : State) : State :=
  match notetakerId with
  | none => st
  | some _ =>
    if meetingState = some "dispatched" then
      updateProgressByNotetakerId notetakerId "Notetaker dispatched. Preparing to join..." 25
        (updateMeetingByNotetakerId notetakerId { status := some "joining" } st)
    else if meetingState = some "waiting_for_entry" then
      updateProgressByNotetakerId notetakerId "Waiting to be admitted to meeting..." 30
        (updateMeetingByNotetakerId notetakerId { status := some "joining" } st)
    else if meetingState = some "recording_active" then
      updateProgressByNotetakerId notetakerId "In meeting. Recording..." 60
        (updateMeetingByNotetakerId notetakerId { status := some "recording" } st)
    else if meetingState = some "api_request" then
      updateProgressByNotetakerId notetakerId "Recording stopped. Processing..." 80
        (updateMeetingByNotetakerId notetakerId { status := some "processing" } st)
    else if meetingState = some "no_meeting_activity" then
      updateProgressByNotetakerId notetakerId "Meeting ended. Processing recording..." 80
        (updateMeetingByNotetakerId notetakerId { status := some "processing" } st)
    else if meetingState = some "no_participants" then
      updateProgressByNotetakerId notetakerId "Meeting ended. Processing recording..." 80
        (updateMeetingByNotetakerId notetakerId { status := some "processing" } st)
    else if meetingState = some "bad_meeting_code" then
      updateProgressByNotetakerId notetakerId "Failed to join: bad_meeting_code" 0
        (updateMeetingByNotetakerId notetakerId { status := some "failed" } st)
    else if meetingState = some "entry_denied" then
      updateProgressByNotetakerId notetakerId "Failed to join: entry_denied" 0
        (updateMeetingByNotetakerId notetakerId { status := some "failed" } st)
    else if meetingState = some "no_response" then
      updateProgressByNotetakerId notetakerId "Failed to join: no_response" 0
        (updateMeetingByNotetakerId notetakerId { status := some "failed" } st)
    else if meetingState = some "kicked" then
      updateProgressByNotetakerId notetakerId "Removed from meeting by participant" 0
        (updateMeetingByNotetakerId notetakerId { status := some "failed" } st)
    else if meetingState = some "internal_error" then
      updateProgressByNotetakerId notetakerId "Internal error occurred" 0
        (updateMeetingByNotetakerId notetakerId { status := some "failed" } st)
    else
      updateProgressByNotetakerId notetakerId
        ("Meeting state: " ++ meetingState.getD "undefined") 50 st

/-- The `handleNotetakerStatusUpdate` (lines 265-330): the `notetaker.updated`
state table. -/
def handleNotetakerStatusUpdate (notetakerId : Option String)
    (state : Option String) (st : State) : State :=
  match notetakerId with
  | none => st
  | some _ =>
    if state = some "scheduled" then
      updateProgressByNotetakerId notetakerId "Notetaker scheduled. Waiting..." 15
        (updateMeetingByNotetakerId notetakerId { status := some "joining" } st)
    else if state = some "connecting" then
      updateProgressByNotetakerId notetakerId "Connecting to meeting..." 30
        (updateMeetingByNotetakerId notetakerId { status := some "joining" } st)
    else if state = some "waiting_for_entry" then
      updateProgressByNotetakerId notetakerId "Waiting to be admitted..." 35
        (updateMeetingByNotetakerId notetakerId { status := some "joining" } st)
    else if state = some "attending" then
      updateProgressByNotetakerId notetakerId "Attending meeting. Recording..." 60
        (updateMeetingByNotetakerId notetakerId { status := some "recording" } st)
    else if state = some "disconnected" then
      updateProgressByNotetakerId notetakerId "Disconnected. Processing recording..." 80
        (updateMeetingByNotetakerId notetakerId { status := some "processing" } st)
    else if state = some "failed_entry" then
      updateProgressByNotetakerId notetakerId "Failed to enter meeting" 0
        (updateMeetingByNotetakerId notetakerId { status := some "failed" } st)
    else
      updateProgressByNotetakerId notetakerId
        ("Status: " ++ state.getD "undefined") 50 st

/-- The `handleMediaAvailable` (lines 332-418): resolve by strict equality on the
bot id, then branch on the media state.  On `available`: progress 90, then
fetch the payload's transcript URL if present (persisting transcript, note,
media URLs, status `completed`, progress 100 on success; falling back to
`handleMeetingCompleted` on a thrown download or a missing URL; doing
nothing further on a falsy response body). -/
def handleMediaAvailable (o : Oracles) (notetakerId grantId : Option String)
    (media : Option Media) (mediaState : Option String) (st : State) : State :=
  let meeting? :=
    match notetakerId with
    | some nid => findByNotetakerId nid (getAllMeetings st)
    | none => none
  match meeting? with
  | none => st
  | some meeting =>
    match mediaState with
    | some "processing" =>
      updateProgress meeting.id "Processing recording and transcription..." 85 st
    | some "available" =>
      let st1 := updateProgress meeting.id "Media files available. Generating note..." 90 st
      match media with
      | some mv =>
        match mv.transcript with
        | some url =>
          match o.fetchTranscriptUrl url with
          | .error _ => handleMeetingCompleted o notetakerId grantId st1
          | .ok none => st1
          | .ok (some transcript) =>
            let st2 := (updateMeeting meeting.id { transcript := some transcript } st1).2
            let note := generateNote transcript
            let st3 := (updateMeeting meeting.id
              { note := some note, status := some "completed" } st2).2
            let st4 := (updateMeeting meeting.id
              { recording := some mv.recording
                note := some { note with
                  summaryUrl := mv.summary, actionItemsUrl := mv.action_items }
                status := some "completed" } st3).2
            updateProgress meeting.id "Note generated successfully!" 100 st4
        | none => handleMeetingCompleted o notetakerId grantId st1
      | none => handleMeetingCompleted o notetakerId grantId st1
    | some "error" =>
      let st1 := updateProgress meeting.id "Error processing recording" 0 st
      (updateMeeting meeting.id { status := some "failed" } st1).2
    | some "deleted" => st
    | _ => st

/-- The `processWebhookEvent` (lines 51-168): normalise the payload, then
dispatch on the event type.  Unknown types only log. -/
def processWebhookEvent (o : Oracles) (ev : Event) (st : State) : State :=
  let d := ev.data
  let nd := notetakerData d
  let notetakerId := evNotetakerId d
  let grantId := evGrantId d
  match ev.type with
  | "notetaker.created" =>
    match notetakerId with
    | none => st
    | some nid =>
      let meetings := getAllMeetings st
      let meeting? :=
        (match grantId with
          | some g => meetings.find? (fun m => m.notetakerId == none && m.grantId == g)
          | none => none) <|>
        meetings.find? (fun m => m.notetakerId == some nid)
      match meeting? with
      | some meeting =>
        let st1 := (updateMeeting meeting.id
          { status := some "joining", notetakerId := some nid } st).2
        updateProgress meeting.id "Notetaker created. Waiting to join meeting..." 20 st1
      | none =>
        let st1 := updateMeetingByNotetakerId (some nid)
          { status := some "joining", notetakerId := some nid } st
        updateProgressByNotetakerId (some nid)
          "Notetaker created. Waiting to join meeting..." 20 st1
  | "notetaker.meeting_state" =>
    let meetingState := nd.meeting_state <|> d.flat.meeting_state <|> d.flat.state
    handleMeetingStateChange notetakerId meetingState st
  | "notetaker.media" =>
    let mediaState := nd.state <|> d.flat.state
    let media := nd.media <|> d.flat.media
    handleMediaAvailable o notetakerId grantId media mediaState st
  | "notetaker.updated" =>
    let updatedState := nd.state <|> d.flat.state
    handleNotetakerStatusUpdate notetakerId updatedState st
  | "notetaker.deleted" =>
    let st1 := updateMeetingByNotetakerId notetakerId { status := some "failed" } st
    updateProgressByNotetakerId notetakerId "Notetaker was cancelled" 0 st1
  | "notetaker.joined" =>
    let st1 := updateMeetingByNotetakerId notetakerId { status := some "recording" } st
    updateProgressByNotetakerId notetakerId "Bot joined meeting. Recording..." 50 st1
  | "notetaker.recording" =>
    let st1 := updateMeetingByNotetakerId notetakerId { status := some "recording" } st
    updateProgressByNotetakerId notetakerId "Recording in progress..." 70 st1
  | "notetaker.completed" =>
    handleMeetingCompleted o notetakerId grantId st
  | "notetaker.failed" =>
    let st1 := updateMeetingByNotetakerId notetakerId { status := some "failed" } st
    updateProgressByNotetakerId notetakerId "Failed to record meeting" 0 st1
  | _ => st

/-! ### Session-creation controller (`addMeeting`) and list ordering -/

/-- Response of the bot-dispatch call `nylasService.deployNotetaker`. -/
structure DeployResp where
  id : Option String := none
deriving DecidableEq, Repr

/-- Request body of `POST /api/meetings`. -/
structure AddMeetingReq where
  meetingUrl : Option String := none
  grantId : Option String := none
deriving DecidableEq, Repr

/-- The subset of the meeting record returned in the 201 body. -/
structure MeetingSummary where
  id : String
  meetingUrl : String
  status : String
  progress : Progress
  createdAt : Nat
deriving DecidableEq, Repr

/-- HTTP response of `addMeeting`. -/
structure AddResp where
  statusCode : Nat
  body : Option MeetingSummary := none
  error : Option String := none
deriving DecidableEq, Repr

/-- JS falsiness of a possibly-absent string (`!x`): absent or empty. -/
def jsFalsyStr : Option String → Bool
  | none => true
  | some s => s.isEmpty

/-- The `addMeeting` (the `POST /api/meetings` controller): validate inputs,
create the record, dispatch the bot (success links the bot id and sets
`joining`@20; a thrown dispatch sets `failed` and an `Error: ...` progress
message), and always answer 201 once validation passed.  The 201 body is
built from the `meeting` binding captured before the updates, which in the
in-memory service still holds the pre-dispatch snapshot.  The dispatch
outcome, fresh id and clock tick are parameters. -/
def addMeeting (deploy : Except String DeployResp) (freshId : String)
    (now : Nat) (req : AddMeetingReq) (st : State) : AddResp × State :=
  if jsFalsyStr req.meetingUrl then
    ({ statusCode := 400, error := some "meetingUrl is required" }, st)
  else if jsFalsyStr req.grantId then
    ({ statusCode := 400, error := some "grantId is required" }, st)
  else
    let murl := req.meetingUrl.getD ""
    let gid := req.grantId.getD ""
    if !strContains murl "meet.google.com" && !strContains murl "meet/" then
      ({ statusCode := 400, error := some "Invalid Google Meet URL" }, st)
    else
      let meeting := createMeeting murl gid freshId now
      let st0 := setMeeting meeting st
      let st1 :=
        match deploy with
        | .ok resp =>
          match resp.id with
          | some nid =>
            let sta := (updateMeeting meeting.id { notetakerId := some nid } st0).2
            let stb := (updateMeeting meeting.id
              { status := some "joining", notetakerId := some nid } sta).2
            updateProgress meeting.id "Bot deployed. Joining meeting..." 20 stb
          | none => st0
        | .error msg =>
          let sta := (updateMeeting meeting.id { status := some "failed" } st0).2
          updateProgress meeting.id ("Error: " ++ msg) 0 sta
      ({ statusCode := 201
         body := some
           { id := meeting.id
             meetingUrl := meeting.meetingUrl
             status := meeting.status
             progress := meeting.progress
             createdAt := meeting.createdAt } }, st1)

/-- The ordering used by `DatabaseService.getAllMeetings`:
`ORDER BY created_at DESC`. -/
def createdDesc (a b : Meeting) : Prop := b.createdAt ≤ a.createdAt

instance : DecidableRel createdDesc := fun a b => Nat.decLe b.createdAt a.createdAt

instance : IsTotal Meeting createdDesc :=
  ⟨fun a b => (Nat.le_total b.createdAt a.createdAt).elim Or.inl Or.inr⟩

instance : IsTrans Meeting createdDesc :=
  ⟨fun _ _ _ hab hbc => Nat.le_trans hbc hab⟩

/-- The `DatabaseService.getAllMeetings`: the stored rows ordered by
`created_at` descending (the `ORDER BY created_at DESC` the query applies). -/
def dbGetAllMeetings (rows : List Meeting) : List Meeting :=
  rows.insertionSort createdDesc

/-! ### Store lemmas -/

/-- Ids of the stored meetings are pairwise distinct (`Map` keys); the
universally-quantified theorems assume it. -/
def IdsNodup (st : State) : Prop := (st.map Meeting.id).Nodup

instance : DecidablePred IdsNodup := fun st =>
  List.nodupDecidable (st.map Meeting.id)

theorem mergeUpd_id (m : Meeting) (u : Updates) : (mergeUpd m u).id = m.id := rfl

theorem setProg_id (msg : String) (pct : Nat) (m : Meeting) :
    (setProg msg pct m).id = m.id := rfl

theorem setProg_nid (msg : String) (pct : Nat) (m : Meeting) :
    (setProg msg pct m).notetakerId = m.notetakerId := rfl

theorem mergeUpd_nid_of_none (m : Meeting) (u : Updates)
    (h : u.notetakerId = none) : (mergeUpd m u).notetakerId = m.notetakerId := by
  simp [mergeUpd, h]

theorem getMeeting_found_id {i : String} {st : State} {m : Meeting}
    (h : getMeeting i st = some m) : m.id = i := by
  have := List.find?_some h
  simpa using this

theorem getMeeting_mem {i : String} {st : State} {m : Meeting}
    (h : getMeeting i st = some m) : m ∈ st :=
  List.mem_of_find?_eq_some h

theorem findByNotetakerId_found_nid {n : String} {st : State} {m : Meeting}
    (h : findByNotetakerId n st = some m) : m.notetakerId = some n := by
  have := List.find?_some h
  simpa using this

theorem findByNotetakerId_mem {n : String} {st : State} {m : Meeting}
    (h : findByNotetakerId n st = some m) : m ∈ st :=
  List.mem_of_find?_eq_some h

/-- Under distinct ids, looking up a member meeting's id returns exactly that
meeting. -/
theorem getMeeting_of_mem {st : State} {m : Meeting}
    (hnd : IdsNodup st) (hm : m ∈ st) : getMeeting m.id st = some m := by
  induction st with
  | nil => cases hm
  | cons hd tl ih =>
    have hnd2 := hnd
    simp only [IdsNodup, List.map_cons, List.nodup_cons] at hnd2
    rcases List.mem_cons.mp hm with h | h
    · subst h
      simp [getMeeting]
    · have hne : (hd.id == m.id) = false := by
        simp only [beq_eq_false_iff_ne, ne_eq]
        intro he
        exact hnd2.1 (List.mem_map.mpr ⟨m, h, he.symm⟩)
      rw [getMeeting, List.find?_cons, hne]
      exact ih hnd2.2 h

theorem getMeeting_setMeeting_self (v : Meeting) (st : State) :
    getMeeting v.id (setMeeting v st) = some v := by
  induction st with
  | nil => simp [setMeeting, getMeeting]
  | cons hd tl ih =>
    by_cases h : hd.id = v.id
    · simp [setMeeting, getMeeting, h]
    · have hb : (hd.id == v.id) = false := by simpa using h
      rw [setMeeting, if_neg (by simp [h]), getMeeting, List.find?_cons, hb]
      exact ih

theorem getMeeting_setMeeting_other {j : String} (v : Meeting) (st : State)
    (h : v.id ≠ j) : getMeeting j (setMeeting v st) = getMeeting j st := by
  induction st with
  | nil => simp [setMeeting, getMeeting, h]
  | cons hd tl ih =>
    by_cases hh : hd.id = v.id
    · have hb1 : (v.id == j) = false := by simpa using h
      have hb2 : (hd.id == j) = false := by simpa [hh] using h
      rw [setMeeting, if_pos (by simpa using hh)]
      rw [getMeeting, List.find?_cons, hb1]
      rw [getMeeting, List.find?_cons, hb2]
    · by_cases hj : hd.id = j
      · rw [setMeeting, if_neg (by simp [hh])]
        rw [getMeeting, List.find?_cons, show (hd.id == j) = true by simpa using hj]
        rw [getMeeting, List.find?_cons, show (hd.id == j) = true by simpa using hj]
      · rw [setMeeting, if_neg (by simp [hh])]
        rw [getMeeting, List.find?_cons, show (hd.id == j) = false by simpa using hj]
        rw [getMeeting, List.find?_cons, show (hd.id == j) = false by simpa using hj]
        exact ih

/-! ### Resolve-then-modify normal form

Every reducer path except resolution-by-grant is "find the first meeting with
the event's bot id, replace some of its fields".  `modifyFirstNid` is that
normal form; the lemmas below rewrite each handler into it (under distinct
ids), which makes replay/idempotence arguments compositional. -/

/-- Apply `f` to the first meeting whose `notetakerId` is `some n`. -/
def modifyFirstNid (n : String) (f : Meeting → Meeting) : State → State
  | [] => []
  | m :: rest =>
    if m.notetakerId == some n then f m :: rest else m :: modifyFirstNid n f rest

/-- The `f` does not change the bot id of a record. -/
def PreservesNid (f : Meeting → Meeting) : Prop :=
  ∀ m, (f m).notetakerId = m.notetakerId

/-- The `f` does not change the primary id of a record. -/
def PreservesId (f : Meeting → Meeting) : Prop :=
  ∀ m, (f m).id = m.id

theorem modifyFirstNid_of_not_found {n : String} {f : Meeting → Meeting}
    {st : State} (h : findByNotetakerId n st = none) :
    modifyFirstNid n f st = st := by
  induction st with
  | nil => rfl
  | cons hd tl ih =>
    rw [findByNotetakerId, List.find?_cons] at h
    cases hb : (hd.notetakerId == some n) with
    | true => rw [hb] at h; cases h
    | false =>
      rw [hb] at h
      rw [modifyFirstNid, if_neg (by simp [hb])]
      rw [ih h]

theorem map_id_modifyFirstNid {n : String} {f : Meeting → Meeting}
    (hf : PreservesId f) (st : State) :
    (modifyFirstNid n f st).map Meeting.id = st.map Meeting.id := by
  induction st with
  | nil => rfl
  | cons hd tl ih =>
    by_cases hb : (hd.notetakerId == some n) = true
    · rw [modifyFirstNid, if_pos hb]
      simp [hf hd]
    · rw [modifyFirstNid, if_neg hb]
      simp [ih]

theorem idsNodup_modifyFirstNid {n : String} {f : Meeting → Meeting}
    (hf : PreservesId f) {st : State} (hnd : IdsNodup st) :
    IdsNodup (modifyFirstNid n f st) := by
  unfold IdsNodup
  rw [map_id_modifyFirstNid hf]
  exact hnd

theorem findByNotetakerId_modifyFirstNid {n : String} {f : Meeting → Meeting}
    (hf : PreservesNid f) (st : State) :
    findByNotetakerId n (modifyFirstNid n f st) =
      (findByNotetakerId n st).map f := by
  induction st with
  | nil => rfl
  | cons hd tl ih =>
    by_cases hb : (hd.notetakerId == some n) = true
    · rw [modifyFirstNid, if_pos hb]
      rw [findByNotetakerId, List.find?_cons,
        show ((f hd).notetakerId == some n) = true by rw [hf hd]; exact hb]
      rw [findByNotetakerId, List.find?_cons, hb]
      rfl
    · rw [modifyFirstNid, if_neg hb]
      rw [findByNotetakerId, List.find?_cons,
        show (hd.notetakerId == some n) = false by simpa using hb]
      rw [findByNotetakerId, List.find?_cons,
        show (hd.notetakerId == some n) = false by simpa using hb]
      exact ih

theorem modifyFirstNid_comp {n : String} {f g : Meeting → Meeting}
    (hf : PreservesNid f) (st : State) :
    modifyFirstNid n g (modifyFirstNid n f st) =
      modifyFirstNid n (fun m => g (f m)) st := by
  induction st with
  | nil => rfl
  | cons hd tl ih =>
    by_cases hb : (hd.notetakerId == some n) = true
    · rw [modifyFirstNid, if_pos hb, modifyFirstNid,
        if_pos (by rw [hf hd]; exact hb), modifyFirstNid, if_pos hb]
    · rw [modifyFirstNid, if_neg hb, modifyFirstNid, if_neg hb,
        modifyFirstNid, if_neg hb, ih]

theorem modifyFirstNid_congr {n : String} {f g : Meeting → Meeting}
    (h : ∀ m, m.notetakerId = some n → f m = g m) (st : State) :
    modifyFirstNid n f st = modifyFirstNid n g st := by
  induction st with
  | nil => rfl
  | cons hd tl ih =>
    by_cases hb : (hd.notetakerId == some n) = true
    · rw [modifyFirstNid, if_pos hb, modifyFirstNid, if_pos hb,
        h hd (by simpa using hb)]
    · rw [modifyFirstNid, if_neg hb, modifyFirstNid, if_neg hb, ih]

theorem getMeeting_modifyFirstNid_self {n : String} {f : Meeting → Meeting}
    {st : State} {m : Meeting} (hnd : IdsNodup st)
    (hm : findByNotetakerId n st = some m) (hf : PreservesId f) :
    getMeeting m.id (modifyFirstNid n f st) = some (f m) := by
  induction st with
  | nil => cases hm
  | cons hd tl ih =>
    have hnd2 := hnd
    simp only [IdsNodup, List.map_cons, List.nodup_cons] at hnd2
    by_cases hb : (hd.notetakerId == some n) = true
    · rw [findByNotetakerId, List.find?_cons, hb] at hm
      cases hm
      rw [modifyFirstNid, if_pos hb, getMeeting, List.find?_cons,
        show ((f m).id == m.id) = true by simp [hf m]]
    · rw [findByNotetakerId, List.find?_cons,
        show (hd.notetakerId == some n) = false by simpa using hb] at hm
      have hmem : m ∈ tl := findByNotetakerId_mem hm
      have hne : (hd.id == m.id) = false := by
        simp only [beq_eq_false_iff_ne, ne_eq]
        intro he
        exact hnd2.1 (List.mem_map.mpr ⟨m, hmem, he.symm⟩)
      rw [modifyFirstNid, if_neg hb, getMeeting, List.find?_cons, hne]
      exact ih hnd2.2 hm

theorem getMeeting_modifyFirstNid_other {n j : String} {f : Meeting → Meeting}
    {st : State} (hf : PreservesId f)
    (h : ∀ m, findByNotetakerId n st = some m → m.id ≠ j) :
    getMeeting j (modifyFirstNid n f st) = getMeeting j st := by
  induction st with
  | nil => rfl
  | cons hd tl ih =>
    by_cases hb : (hd.notetakerId == some n) = true
    · have hhd : hd.id ≠ j := by
        apply h hd
        rw [findByNotetakerId, List.find?_cons, hb]
      rw [modifyFirstNid, if_pos hb]
      rw [getMeeting, List.find?_cons,
        show ((f hd).id == j) = false by simp [hf hd, hhd]]
      rw [getMeeting, List.find?_cons, show (hd.id == j) = false by simp [hhd]]
    · have h' : ∀ m, findByNotetakerId n tl = some m → m.id ≠ j := by
        intro m hm
        apply h m
        rw [findByNotetakerId, List.find?_cons,
          show (hd.notetakerId == some n) = false by simpa using hb]
        exact hm
      rw [modifyFirstNid, if_neg hb]
      by_cases hj : hd.id = j
      · rw [getMeeting, List.find?_cons, show (hd.id == j) = true by simp [hj]]
        rw [getMeeting, List.find?_cons, show (hd.id == j) = true by simp [hj]]
      · rw [getMeeting, List.find?_cons, show (hd.id == j) = false by simp [hj]]
        rw [getMeeting, List.find?_cons, show (hd.id == j) = false by simp [hj]]
        exact ih h'

theorem modifyFirstNid_id (n : String) (st : State) :
    modifyFirstNid n (fun m => m) st = st := by
  induction st with
  | nil => rfl
  | cons hd tl ih =>
    by_cases hb : (hd.notetakerId == some n) = true
    · rw [modifyFirstNid, if_pos hb]
    · rw [modifyFirstNid, if_neg hb, ih]

theorem setMeeting_modifyFirstNid {n : String} {st : State} {m : Meeting}
    (hnd : IdsNodup st) (hm : findByNotetakerId n st = some m)
    {f : Meeting → Meeting} (hf : PreservesId f) :
    setMeeting (f m) st = modifyFirstNid n f st := by
  induction st with
  | nil => cases hm
  | cons hd tl ih =>
    have hnd2 := hnd
    simp only [IdsNodup, List.map_cons, List.nodup_cons] at hnd2
    by_cases hb : (hd.notetakerId == some n) = true
    · rw [findByNotetakerId, List.find?_cons, hb] at hm
      cases hm
      rw [setMeeting, if_pos (by simp [hf m]), modifyFirstNid, if_pos hb]
    · rw [findByNotetakerId, List.find?_cons,
        show (hd.notetakerId == some n) = false by simpa using hb] at hm
      have hmem : m ∈ tl := findByNotetakerId_mem hm
      have hne : (hd.id == (f m).id) = false := by
        simp only [hf m, beq_eq_false_iff_ne, ne_eq]
        intro he
        exact hnd2.1 (List.mem_map.mpr ⟨m, hmem, he.symm⟩)
      rw [setMeeting, if_neg (by simp [← Bool.not_eq_true] at hne ⊢; simpa using hne),
        modifyFirstNid, if_neg hb, ih hnd2.2 hm]

theorem updateMeeting_snd_modifyFirstNid {n : String} {st : State} {m : Meeting}
    (hnd : IdsNodup st) (hm : findByNotetakerId n st = some m) (u : Updates) :
    (updateMeeting m.id u st).2 = modifyFirstNid n (fun x => mergeUpd x u) st := by
  have hget : getMeeting m.id st = some m :=
    getMeeting_of_mem hnd (findByNotetakerId_mem hm)
  rw [updateMeeting, hget]
  exact setMeeting_modifyFirstNid hnd hm (fun x => mergeUpd_id x u)

theorem updateProgress_modifyFirstNid {n : String} {st : State} {m : Meeting}
    (hnd : IdsNodup st) (hm : findByNotetakerId n st = some m)
    (msg : String) (pct : Nat) :
    updateProgress m.id msg pct st = modifyFirstNid n (setProg msg pct) st := by
  have hget : getMeeting m.id st = some m :=
    getMeeting_of_mem hnd (findByNotetakerId_mem hm)
  rw [updateProgress, hget]
  exact setMeeting_modifyFirstNid hnd hm (setProg_id msg pct)

theorem updateMeetingByNotetakerId_modifyFirstNid {n : String} {st : State}
    (hnd : IdsNodup st) (u : Updates) (hg : u.grantId = none) :
    updateMeetingByNotetakerId (some n) u st =
      modifyFirstNid n (fun x => mergeUpd x u) st := by
  rw [updateMeetingByNotetakerId]
  cases hm : findByNotetakerId n st with
  | none =>
    rw [modifyFirstNid_of_not_found hm, hg]
    cases u.notetakerId <;> rfl
  | some m => exact updateMeeting_snd_modifyFirstNid hnd hm u

theorem updateProgressByNotetakerId_modifyFirstNid {n : String} {st : State}
    (hnd : IdsNodup st) (msg : String) (pct : Nat) :
    updateProgressByNotetakerId (some n) msg pct st =
      modifyFirstNid n (setProg msg pct) st := by
  rw [updateProgressByNotetakerId]
  cases hm : findByNotetakerId n st with
  | none => rw [modifyFirstNid_of_not_found hm]
  | some m => exact updateProgress_modifyFirstNid hnd hm msg pct

theorem preservesNid_mergeUpd {u : Updates} (hun : u.notetakerId = none) :
    PreservesNid (fun x => mergeUpd x u) :=
  fun m => mergeUpd_nid_of_none m u hun

theorem preservesId_mergeUpd (u : Updates) :
    PreservesId (fun x => mergeUpd x u) :=
  fun m => mergeUpd_id m u

theorem preservesNid_setProg (msg : String) (pct : Nat) :
    PreservesNid (setProg msg pct) :=
  fun m => setProg_nid msg pct m

theorem preservesId_setProg (msg : String) (pct : Nat) :
    PreservesId (setProg msg pct) :=
  fun m => setProg_id msg pct m

/-- The common "set status by bot id, then set progress by bot id" step of
the reducer, in normal form. -/
theorem statusProg_modifyFirstNid {n : String} {st : State}
    (hnd : IdsNodup st) (u : Updates) (hun : u.notetakerId = none)
    (hg : u.grantId = none) (msg : String) (pct : Nat) :
    updateProgressByNotetakerId (some n) msg pct
        (updateMeetingByNotetakerId (some n) u st) =
      modifyFirstNid n (fun m => setProg msg pct (mergeUpd m u)) st := by
  rw [updateMeetingByNotetakerId_modifyFirstNid hnd u hg]
  rw [updateProgressByNotetakerId_modifyFirstNid
    (idsNodup_modifyFirstNid (preservesId_mergeUpd u) hnd) msg pct]
  exact modifyFirstNid_comp (preservesNid_mergeUpd hun) st

theorem setProg_setProg (a c : String) (b d : Nat) (m : Meeting) :
    setProg a b (setProg c d m) = setProg a b m := rfl

theorem setProg_mergeUpd_idem (u : Updates) (msg : String) (pct : Nat)
    (m : Meeting) :
    setProg msg pct (mergeUpd (setProg msg pct (mergeUpd m u)) u) =
      setProg msg pct (mergeUpd m u) := by
  simp only [mergeUpd, setProg]
  cases u.status <;> cases u.notetakerId <;> cases u.transcript <;>
    cases u.recording <;> cases u.note <;> cases u.grantId <;> rfl

theorem modifyFirstNid_idem {n : String} {f : Meeting → Meeting} (st : State)
    (hfn : PreservesNid f) (hff : ∀ m, f (f m) = f m) :
    modifyFirstNid n f (modifyFirstNid n f st) = modifyFirstNid n f st := by
  rw [modifyFirstNid_comp hfn]
  exact modifyFirstNid_congr (fun m _ => hff m) st

/-- Idempotence of the "status then progress by bot id" step. -/
theorem statusProg_idem {nid : Option String} {st : State}
    (hnd : IdsNodup st) (u : Updates) (hun : u.notetakerId = none)
    (hg : u.grantId = none) (msg : String) (pct : Nat) :
    updateProgressByNotetakerId nid msg pct
        (updateMeetingByNotetakerId nid u
          (updateProgressByNotetakerId nid msg pct
            (updateMeetingByNotetakerId nid u st))) =
      updateProgressByNotetakerId nid msg pct
        (updateMeetingByNotetakerId nid u st) := by
  cases nid with
  | none => rfl
  | some n =>
    rw [statusProg_modifyFirstNid hnd u hun hg msg pct]
    have hpn : PreservesNid (fun m => setProg msg pct (mergeUpd m u)) :=
      fun m => by
        rw [setProg_nid]
        exact mergeUpd_nid_of_none m u hun
    have hpi : PreservesId (fun m => setProg msg pct (mergeUpd m u)) :=
      fun m => by rw [setProg_id]; exact mergeUpd_id m u
    rw [statusProg_modifyFirstNid (idsNodup_modifyFirstNid hpi hnd) u hun hg msg pct]
    exact modifyFirstNid_idem st hpn (fun m => setProg_mergeUpd_idem u msg pct m)

/-- Effect of `handleMeetingCompleted` on the resolved record, as one
function (normal form of the handler). -/
def hmcFun (o : Oracles) (g : Option String) (n : String) : Meeting → Meeting :=
  fun m =>
    let m1 := setProg "Meeting completed. Generating note..." 90 m
    match o.getTranscript g n with
    | .error _ => setProg "Error generating note" 0 m1
    | .ok none => m1
    | .ok (some t) =>
      setProg "Note generated successfully!" 100
        (mergeUpd (mergeUpd m1 { transcript := some t })
          { note := some (generateNote t), status := some "completed" })

theorem preservesNid_hmcFun (o : Oracles) (g : Option String) (n : String) :
    PreservesNid (hmcFun o g n) := by
  intro m
  unfold hmcFun
  cases o.getTranscript g n with
  | error e => rfl
  | ok t => cases t <;> rfl

theorem preservesId_hmcFun (o : Oracles) (g : Option String) (n : String) :
    PreservesId (hmcFun o g n) := by
  intro m
  unfold hmcFun
  cases o.getTranscript g n with
  | error e => rfl
  | ok t => cases t <;> rfl

theorem hmcFun_idem (o : Oracles) (g : Option String) (n : String)
    (m : Meeting) : hmcFun o g n (hmcFun o g n m) = hmcFun o g n m := by
  unfold hmcFun
  cases o.getTranscript g n with
  | error e => rfl
  | ok t => cases t <;> rfl

/-- The `handleMeetingCompleted` in normal form. -/
theorem handleMeetingCompleted_modifyFirstNid (o : Oracles) {n : String}
    (g : Option String) {st : State} (hnd : IdsNodup st) :
    handleMeetingCompleted o (some n) g st =
      modifyFirstNid n (hmcFun o g n) st := by
  rw [handleMeetingCompleted]
  cases hm : findByNotetakerId n st with
  | none => rw [modifyFirstNid_of_not_found hm]
  | some meeting =>
    dsimp only
    rw [updateProgress_modifyFirstNid hnd hm "Meeting completed. Generating note..." 90]
    have hnd1 : IdsNodup (modifyFirstNid n
        (setProg "Meeting completed. Generating note..." 90) st) :=
      idsNodup_modifyFirstNid (preservesId_setProg _ _) hnd
    have hm1 : findByNotetakerId n (modifyFirstNid n
        (setProg "Meeting completed. Generating note..." 90) st) =
        some (setProg "Meeting completed. Generating note..." 90 meeting) := by
      rw [findByNotetakerId_modifyFirstNid (preservesNid_setProg _ _), hm]
      rfl
    cases ho : o.getTranscript g n with
    | error e =>
      dsimp only
      have : meeting.id = (setProg "Meeting completed. Generating note..." 90 meeting).id := rfl
      rw [this, updateProgress_modifyFirstNid hnd1 hm1 "Error generating note" 0,
        modifyFirstNid_comp (preservesNid_setProg _ _)]
      apply modifyFirstNid_congr
      intro m _
      simp only [hmcFun, ho]
    | ok t =>
      cases t with
      | none =>
        dsimp only
        apply modifyFirstNid_congr
        intro m _
        simp only [hmcFun, ho]
      | some tr =>
        dsimp only
        have hid1 : meeting.id = (setProg "Meeting completed. Generating note..." 90 meeting).id := rfl
        rw [hid1, updateMeeting_snd_modifyFirstNid hnd1 hm1 { transcript := some tr }]
        have hpn1 : PreservesNid (fun x => mergeUpd x { transcript := some tr }) :=
          preservesNid_mergeUpd rfl
        have hnd2 : IdsNodup (modifyFirstNid n
            (fun x => mergeUpd x { transcript := some tr })
            (modifyFirstNid n (setProg "Meeting completed. Generating note..." 90) st)) :=
          idsNodup_modifyFirstNid (preservesId_mergeUpd _) hnd1
        have hm2 : findByNotetakerId n (modifyFirstNid n
            (fun x => mergeUpd x { transcript := some tr })
            (modifyFirstNid n (setProg "Meeting completed. Generating note..." 90) st)) =
            some (mergeUpd (setProg "Meeting completed. Generating note..." 90 meeting)
              { transcript := some tr }) := by
          rw [findByNotetakerId_modifyFirstNid hpn1, hm1]
          rfl
        have hid2 : (setProg "Meeting completed. Generating note..." 90 meeting).id =
            (mergeUpd (setProg "Meeting completed. Generating note..." 90 meeting)
              { transcript := some tr }).id := rfl
        rw [hid2, updateMeeting_snd_modifyFirstNid hnd2 hm2
          { note := some (generateNote tr), status := some "completed" }]
        have hpn2 : PreservesNid (fun x => mergeUpd x
            { note := some (generateNote tr), status := some "completed" }) :=
          preservesNid_mergeUpd rfl
        have hnd3 := @idsNodup_modifyFirstNid n _ (preservesId_mergeUpd
          { note := some (generateNote tr), status := some "completed" }) _ hnd2
        have hm3 : findByNotetakerId n (modifyFirstNid n
            (fun x => mergeUpd x { note := some (generateNote tr), status := some "completed" })
            (modifyFirstNid n (fun x => mergeUpd x { transcript := some tr })
              (modifyFirstNid n (setProg "Meeting completed. Generating note..." 90) st))) =
            some (mergeUpd (mergeUpd (setProg "Meeting completed. Generating note..." 90 meeting)
              { transcript := some tr })
              { note := some (generateNote tr), status := some "completed" }) := by
          rw [findByNotetakerId_modifyFirstNid hpn2, hm2]
          rfl
        have hid3 : (mergeUpd (setProg "Meeting completed. Generating note..." 90 meeting)
              { transcript := some tr }).id =
            (mergeUpd (mergeUpd (setProg "Meeting completed. Generating note..." 90 meeting)
              { transcript := some tr })
              { note := some (generateNote tr), status := some "completed" }).id := rfl
        rw [hid3, updateProgress_modifyFirstNid hnd3 hm3 "Note generated successfully!" 100]
        rw [modifyFirstNid_comp (preservesNid_setProg _ _)]
        have h2 : PreservesNid (fun m => mergeUpd
            (setProg "Meeting completed. Generating note..." 90 m)
            { transcript := some tr }) := by
          intro m
          show (mergeUpd (setProg "Meeting completed. Generating note..." 90 m)
            { transcript := some tr }).notetakerId = m.notetakerId
          rw [mergeUpd_nid_of_none _ _ rfl, setProg_nid]
        rw [modifyFirstNid_comp h2]
        have h3 : PreservesNid (fun m => mergeUpd (mergeUpd
            (setProg "Meeting completed. Generating note..." 90 m)
            { transcript := some tr })
            { note := some (generateNote tr), status := some "completed" }) := by
          intro m
          show (mergeUpd (mergeUpd (setProg "Meeting completed. Generating note..." 90 m)
            { transcript := some tr })
            { note := some (generateNote tr), status := some "completed" }).notetakerId
            = m.notetakerId
          rw [mergeUpd_nid_of_none _ _ rfl, mergeUpd_nid_of_none _ _ rfl, setProg_nid]
        rw [modifyFirstNid_comp h3]
        apply modifyFirstNid_congr
        intro m _
        simp only [hmcFun, ho]

/-- Effect of `handleMediaAvailable` on the resolved record, as one function
(normal form of the handler; branches that leave the store untouched are the
identity). -/
def mediaFun (o : Oracles) (g : Option String) (n : String)
    (media : Option Media) (mediaState : Option String) : Meeting → Meeting :=
  fun m =>
    match mediaState with
    | some "processing" => setProg "Processing recording and transcription..." 85 m
    | some "available" =>
      let m1 := setProg "Media files available. Generating note..." 90 m
      match media with
      | some mv =>
        match mv.transcript with
        | some url =>
          match o.fetchTranscriptUrl url with
          | .error _ => hmcFun o g n m1
          | .ok none => m1
          | .ok (some t) =>
            let note := generateNote t
            setProg "Note generated successfully!" 100
              (mergeUpd (mergeUpd (mergeUpd m1 { transcript := some t })
                { note := some note, status := some "completed" })
                { recording := some mv.recording
                  note := some { note with
                    summaryUrl := mv.summary, actionItemsUrl := mv.action_items }
                  status := some "completed" })
        | none => hmcFun o g n m1
      | none => hmcFun o g n m1
    | some "error" =>
      mergeUpd (setProg "Error processing recording" 0 m) { status := some "failed" }
    | some "deleted" => m
    | _ => m

theorem preservesNid_mediaFun (o : Oracles) (g : Option String) (n : String)
    (media : Option Media) (ms : Option String) :
    PreservesNid (mediaFun o g n media ms) := by
  intro m
  unfold mediaFun
  split
  · exact setProg_nid _ _ m
  · dsimp only
    split
    · split
      · split
        · rw [preservesNid_hmcFun o g n _, setProg_nid]
        · exact setProg_nid _ _ m
        · rw [setProg_nid, mergeUpd_nid_of_none _ _ rfl, mergeUpd_nid_of_none _ _ rfl,
            mergeUpd_nid_of_none _ _ rfl, setProg_nid]
      · rw [preservesNid_hmcFun o g n _, setProg_nid]
    · rw [preservesNid_hmcFun o g n _, setProg_nid]
  · rw [mergeUpd_nid_of_none _ _ rfl, setProg_nid]
  · rfl
  · rfl

theorem preservesId_mediaFun (o : Oracles) (g : Option String) (n : String)
    (media : Option Media) (ms : Option String) :
    PreservesId (mediaFun o g n media ms) := by
  intro m
  unfold mediaFun
  split
  · exact setProg_id _ _ m
  · dsimp only
    split
    · split
      · split
        · rw [preservesId_hmcFun o g n _, setProg_id]
        · exact setProg_id _ _ m
        · rfl
      · rw [preservesId_hmcFun o g n _, setProg_id]
    · rw [preservesId_hmcFun o g n _, setProg_id]
  · rfl
  · rfl
  · rfl

theorem hmcFun_setProg (o : Oracles) (g : Option String) (n : String)
    (a : String) (b : Nat) (y : Meeting) :
    hmcFun o g n (setProg a b y) = hmcFun o g n y := by
  unfold hmcFun
  cases o.getTranscript g n with
  | error e => rfl
  | ok t => cases t <;> rfl

theorem mediaFun_idem (o : Oracles) (g : Option String) (n : String)
    (media : Option Media) (ms : Option String) (m : Meeting) :
    mediaFun o g n media ms (mediaFun o g n media ms m) =
      mediaFun o g n media ms m := by
  unfold mediaFun
  split
  · rfl
  · dsimp only
    split
    · split
      · split
        · simp only [*]
          rw [hmcFun_setProg, hmcFun_idem]
        · simp only [*]
          rfl
        · simp only [*]
          rfl
      · simp only [*]
        rw [hmcFun_setProg, hmcFun_idem]
    · simp only [*]
      rw [hmcFun_setProg, hmcFun_idem]
  · rfl
  · simp
  · split <;> simp_all


/-- The `handleMediaAvailable` in normal form. -/
theorem handleMediaAvailable_modifyFirstNid (o : Oracles) {n : String}
    (g : Option String) (media : Option Media) (ms : Option String)
    {st : State} (hnd : IdsNodup st) :
    handleMediaAvailable o (some n) g media ms st =
      modifyFirstNid n (mediaFun o g n media ms) st := by
  rw [handleMediaAvailable]
  simp only [getAllMeetings]
  cases hm : findByNotetakerId n st with
  | none => rw [modifyFirstNid_of_not_found hm]
  | some meeting =>
    dsimp only
    have hnd1 := @idsNodup_modifyFirstNid n _
      (preservesId_setProg "Media files available. Generating note..." 90) _ hnd
    have hm1 : findByNotetakerId n (modifyFirstNid n
        (setProg "Media files available. Generating note..." 90) st) =
        some (setProg "Media files available. Generating note..." 90 meeting) := by
      rw [findByNotetakerId_modifyFirstNid (preservesNid_setProg _ _), hm]
      rfl
    split
    · rw [updateProgress_modifyFirstNid hnd hm]
      apply modifyFirstNid_congr
      intro x _
      simp [mediaFun]
    · rw [updateProgress_modifyFirstNid hnd hm]
      cases media with
      | none =>
        rw [handleMeetingCompleted_modifyFirstNid o g hnd1]
        rw [modifyFirstNid_comp (preservesNid_setProg _ _)]
        apply modifyFirstNid_congr
        intro x _
        simp [mediaFun]
      | some mv =>
        dsimp only
        cases htr : mv.transcript with
        | none =>
          rw [handleMeetingCompleted_modifyFirstNid o g hnd1]
          rw [modifyFirstNid_comp (preservesNid_setProg _ _)]
          apply modifyFirstNid_congr
          intro x _
          simp [mediaFun, htr]
        | some url =>
          dsimp only
          cases hfe : o.fetchTranscriptUrl url with
          | error e =>
            try rw [hfe]
            dsimp only
            rw [handleMeetingCompleted_modifyFirstNid o g hnd1]
            rw [modifyFirstNid_comp (preservesNid_setProg _ _)]
            apply modifyFirstNid_congr
            intro x _
            simp [mediaFun, htr, hfe]
          | ok tOpt =>
            cases tOpt with
            | none =>
              try rw [hfe]
              dsimp only
              apply modifyFirstNid_congr
              intro x _
              simp [mediaFun, htr, hfe]
            | some t =>
              try rw [hfe]
              dsimp only
              rw [show meeting.id =
                (setProg "Media files available. Generating note..." 90 meeting).id from rfl]
              rw [updateMeeting_snd_modifyFirstNid hnd1 hm1 { transcript := some t }]
              have hpn1 : PreservesNid
                  (fun x => mergeUpd x { transcript := some t }) :=
                preservesNid_mergeUpd rfl
              have hnd2 := @idsNodup_modifyFirstNid n _
                (preservesId_mergeUpd { transcript := some t }) _ hnd1
              have hm2 : findByNotetakerId n (modifyFirstNid n
                  (fun x => mergeUpd x { transcript := some t })
                  (modifyFirstNid n
                    (setProg "Media files available. Generating note..." 90) st)) =
                  some (mergeUpd
                    (setProg "Media files available. Generating note..." 90 meeting)
                    { transcript := some t }) := by
                rw [findByNotetakerId_modifyFirstNid hpn1, hm1]
                rfl
              rw [show (setProg "Media files available. Generating note..." 90 meeting).id =
                (mergeUpd (setProg "Media files available. Generating note..." 90 meeting)
                  { transcript := some t }).id from rfl]
              rw [updateMeeting_snd_modifyFirstNid hnd2 hm2
                { note := some (generateNote t), status := some "completed" }]
              have hpn2 : PreservesNid (fun x => mergeUpd x
                  { note := some (generateNote t), status := some "completed" }) :=
                preservesNid_mergeUpd rfl
              have hnd3 := @idsNodup_modifyFirstNid n _
                (preservesId_mergeUpd
                  { note := some (generateNote t), status := some "completed" }) _ hnd2
              have hm3 : findByNotetakerId n (modifyFirstNid n
                  (fun x => mergeUpd x
                    { note := some (generateNote t), status := some "completed" })
                  (modifyFirstNid n (fun x => mergeUpd x { transcript := some t })
                    (modifyFirstNid n
                      (setProg "Media files available. Generating note..." 90) st))) =
                  some (mergeUpd (mergeUpd
                    (setProg "Media files available. Generating note..." 90 meeting)
                    { transcript := some t })
                    { note := some (generateNote t), status := some "completed" }) := by
                rw [findByNotetakerId_modifyFirstNid hpn2, hm2]
                rfl
              rw [show (mergeUpd (setProg "Media files available. Generating note..." 90 meeting)
                  { transcript := some t }).id =
                (mergeUpd (mergeUpd
                  (setProg "Media files available. Generating note..." 90 meeting)
                  { transcript := some t })
                  { note := some (generateNote t), status := some "completed" }).id from rfl]
              rw [updateMeeting_snd_modifyFirstNid hnd3 hm3
                { recording := some mv.recording
                  note := some { generateNote t with
                    summaryUrl := mv.summary, actionItemsUrl := mv.action_items }
                  status := some "completed" }]
              have hpn3 : PreservesNid (fun x => mergeUpd x
                  { recording := some mv.recording
                    note := some { generateNote t with
                      summaryUrl := mv.summary, actionItemsUrl := mv.action_items }
                    status := some "completed" }) :=
                preservesNid_mergeUpd rfl
              have hnd4 := @idsNodup_modifyFirstNid n _
                (preservesId_mergeUpd
                  { recording := some mv.recording
                    note := some { generateNote t with
                      summaryUrl := mv.summary, actionItemsUrl := mv.action_items }
                    status := some "completed" }) _ hnd3
              have hm4 : findByNotetakerId n (modifyFirstNid n
                  (fun x => mergeUpd x
                    { recording := some mv.recording
                      note := some { generateNote t with
                        summaryUrl := mv.summary, actionItemsUrl := mv.action_items }
                      status := some "completed" })
                  (modifyFirstNid n
                    (fun x => mergeUpd x
                      { note := some (generateNote t), status := some "completed" })
                    (modifyFirstNid n (fun x => mergeUpd x { transcript := some t })
                      (modifyFirstNid n
                        (setProg "Media files available. Generating note..." 90) st)))) =
                  some (mergeUpd (mergeUpd (mergeUpd
                    (setProg "Media files available. Generating note..." 90 meeting)
                    { transcript := some t })
                    { note := some (generateNote t), status := some "completed" })
                    { recording := some mv.recording
                      note := some { generateNote t with
                        summaryUrl := mv.summary, actionItemsUrl := mv.action_items }
                      status := some "completed" }) := by
                rw [findByNotetakerId_modifyFirstNid hpn3, hm3]
                rfl
              rw [show (mergeUpd (mergeUpd
                  (setProg "Media files available. Generating note..." 90 meeting)
                  { transcript := some t })
                  { note := some (generateNote t), status := some "completed" }).id =
                (mergeUpd (mergeUpd (mergeUpd
                  (setProg "Media files available. Generating note..." 90 meeting)
                  { transcript := some t })
                  { note := some (generateNote t), status := some "completed" })
                  { recording := some mv.recording
                    note := some { generateNote t with
                      summaryUrl := mv.summary, actionItemsUrl := mv.action_items }
                    status := some "completed" }).id from rfl]
              rw [updateProgress_modifyFirstNid hnd4 hm4 "Note generated successfully!" 100]
              rw [modifyFirstNid_comp (preservesNid_setProg _ _)]
              have h2 : PreservesNid (fun x => mergeUpd
                  (setProg "Media files available. Generating note..." 90 x)
                  { transcript := some t }) := by
                intro x
                show (mergeUpd (setProg "Media files available. Generating note..." 90 x)
                  { transcript := some t }).notetakerId = x.notetakerId
                rw [mergeUpd_nid_of_none _ _ rfl, setProg_nid]
              rw [modifyFirstNid_comp h2]
              have h3 : PreservesNid (fun x => mergeUpd (mergeUpd
                  (setProg "Media files available. Generating note..." 90 x)
                  { transcript := some t })
                  { note := some (generateNote t), status := some "completed" }) := by
                intro x
                show (mergeUpd (mergeUpd
                  (setProg "Media files available. Generating note..." 90 x)
                  { transcript := some t })
                  { note := some (generateNote t), status := some "completed" }).notetakerId
                  = x.notetakerId
                rw [mergeUpd_nid_of_none _ _ rfl, mergeUpd_nid_of_none _ _ rfl, setProg_nid]
              rw [modifyFirstNid_comp h3]
              have h4 : PreservesNid (fun x => mergeUpd (mergeUpd (mergeUpd
                  (setProg "Media files available. Generating note..." 90 x)
                  { transcript := some t })
                  { note := some (generateNote t), status := some "completed" })
                  { recording := some mv.recording
                    note := some { generateNote t with
                      summaryUrl := mv.summary, actionItemsUrl := mv.action_items }
                    status := some "completed" }) := by
                intro x
                show (mergeUpd (mergeUpd (mergeUpd
                  (setProg "Media files available. Generating note..." 90 x)
                  { transcript := some t })
                  { note := some (generateNote t), status := some "completed" })
                  { recording := some mv.recording
                    note := some { generateNote t with
                      summaryUrl := mv.summary, actionItemsUrl := mv.action_items }
                    status := some "completed" }).notetakerId = x.notetakerId
                rw [mergeUpd_nid_of_none _ _ rfl, mergeUpd_nid_of_none _ _ rfl,
                  mergeUpd_nid_of_none _ _ rfl, setProg_nid]
              rw [modifyFirstNid_comp h4]
              apply modifyFirstNid_congr
              intro x _
              simp [mediaFun, htr, hfe]
    · rw [updateProgress_modifyFirstNid hnd hm]
      have hndE := @idsNodup_modifyFirstNid n _
        (preservesId_setProg "Error processing recording" 0) _ hnd
      have hmE : findByNotetakerId n (modifyFirstNid n
          (setProg "Error processing recording" 0) st) =
          some (setProg "Error processing recording" 0 meeting) := by
        rw [findByNotetakerId_modifyFirstNid (preservesNid_setProg _ _), hm]
        rfl
      rw [show meeting.id = (setProg "Error processing recording" 0 meeting).id from rfl]
      rw [updateMeeting_snd_modifyFirstNid hndE hmE { status := some "failed" }]
      rw [modifyFirstNid_comp (preservesNid_setProg _ _)]
      apply modifyFirstNid_congr
      intro x _
      simp [mediaFun]
    · have hdel : modifyFirstNid n (mediaFun o g n media (some "deleted")) st
          = modifyFirstNid n (fun m => m) st :=
        modifyFirstNid_congr (fun x _ => by simp [mediaFun]) st
      rw [hdel, modifyFirstNid_id]
    · rename_i h1 h2 h3 h4
      have hdflt : modifyFirstNid n (mediaFun o g n media ms) st
          = modifyFirstNid n (fun m => m) st :=
        modifyFirstNid_congr
          (fun x _ => by simp only [mediaFun]) st
      rw [hdflt, modifyFirstNid_id]

/-! ### Branch equations of `processWebhookEvent` -/

theorem processWebhookEvent_created (o : Oracles) (d : EventData) (st : State) :
    processWebhookEvent o ⟨"notetaker.created", d⟩ st =
      (match evNotetakerId d with
      | none => st
      | some nid =>
        match
          (match evGrantId d with
            | some g =>
              (getAllMeetings st).find?
                (fun m => m.notetakerId == none && m.grantId == g)
            | none => none) <|>
          (getAllMeetings st).find? (fun m => m.notetakerId == some nid) with
        | some meeting =>
          updateProgress meeting.id "Notetaker created. Waiting to join meeting..." 20
            (updateMeeting meeting.id
              { status := some "joining", notetakerId := some nid } st).2
        | none =>
          updateProgressByNotetakerId (some nid)
            "Notetaker created. Waiting to join meeting..." 20
            (updateMeetingByNotetakerId (some nid)
              { status := some "joining", notetakerId := some nid } st)) := rfl

theorem processWebhookEvent_meeting_state (o : Oracles) (d : EventData)
    (st : State) :
    processWebhookEvent o ⟨"notetaker.meeting_state", d⟩ st =
      handleMeetingStateChange (evNotetakerId d)
        ((notetakerData d).meeting_state <|> d.flat.meeting_state <|> d.flat.state)
        st := rfl

theorem processWebhookEvent_media (o : Oracles) (d : EventData) (st : State) :
    processWebhookEvent o ⟨"notetaker.media", d⟩ st =
      handleMediaAvailable o (evNotetakerId d) (evGrantId d)
        ((notetakerData d).media <|> d.flat.media)
        ((notetakerData d).state <|> d.flat.state) st := rfl

theorem processWebhookEvent_updated (o : Oracles) (d : EventData) (st : State) :
    processWebhookEvent o ⟨"notetaker.updated", d⟩ st =
      handleNotetakerStatusUpdate (evNotetakerId d)
        ((notetakerData d).state <|> d.flat.state) st := rfl

theorem processWebhookEvent_deleted (o : Oracles) (d : EventData) (st : State) :
    processWebhookEvent o ⟨"notetaker.deleted", d⟩ st =
      updateProgressByNotetakerId (evNotetakerId d) "Notetaker was cancelled" 0
        (updateMeetingByNotetakerId (evNotetakerId d)
          { status := some "failed" } st) := rfl

theorem processWebhookEvent_joined (o : Oracles) (d : EventData) (st : State) :
    processWebhookEvent o ⟨"notetaker.joined", d⟩ st =
      updateProgressByNotetakerId (evNotetakerId d)
        "Bot joined meeting. Recording..." 50
        (updateMeetingByNotetakerId (evNotetakerId d)
          { status := some "recording" } st) := rfl

theorem processWebhookEvent_recording (o : Oracles) (d : EventData) (st : State) :
    processWebhookEvent o ⟨"notetaker.recording", d⟩ st =
      updateProgressByNotetakerId (evNotetakerId d)
        "Recording in progress..." 70
        (updateMeetingByNotetakerId (evNotetakerId d)
          { status := some "recording" } st) := rfl

theorem processWebhookEvent_completed (o : Oracles) (d : EventData) (st : State) :
    processWebhookEvent o ⟨"notetaker.completed", d⟩ st =
      handleMeetingCompleted o (evNotetakerId d) (evGrantId d) st := rfl

theorem processWebhookEvent_failed (o : Oracles) (d : EventData) (st : State) :
    processWebhookEvent o ⟨"notetaker.failed", d⟩ st =
      updateProgressByNotetakerId (evNotetakerId d) "Failed to record meeting" 0
        (updateMeetingByNotetakerId (evNotetakerId d)
          { status := some "failed" } st) := rfl

/-- Any event type outside the reducer's vocabulary leaves the store
untouched. -/
theorem processWebhookEvent_unknown (o : Oracles) (ev : Event) (st : State)
    (h1 : ev.type ≠ "notetaker.created")
    (h2 : ev.type ≠ "notetaker.meeting_state")
    (h3 : ev.type ≠ "notetaker.media")
    (h4 : ev.type ≠ "notetaker.updated")
    (h5 : ev.type ≠ "notetaker.deleted")
    (h6 : ev.type ≠ "notetaker.joined")
    (h7 : ev.type ≠ "notetaker.recording")
    (h8 : ev.type ≠ "notetaker.completed")
    (h9 : ev.type ≠ "notetaker.failed") :
    processWebhookEvent o ev st = st := by
  rw [processWebhookEvent]
  split <;> simp_all

/-! ### Replay (idempotence) lemmas for the handlers -/

theorem progOnly_idem {nid : Option String} {st : State} (hnd : IdsNodup st)
    (msg : String) (pct : Nat) :
    updateProgressByNotetakerId nid msg pct
        (updateProgressByNotetakerId nid msg pct st) =
      updateProgressByNotetakerId nid msg pct st := by
  cases nid with
  | none => rfl
  | some n =>
    rw [updateProgressByNotetakerId_modifyFirstNid hnd msg pct]
    rw [updateProgressByNotetakerId_modifyFirstNid
      (idsNodup_modifyFirstNid (preservesId_setProg msg pct) hnd) msg pct]
    exact modifyFirstNid_idem st (preservesNid_setProg msg pct)
      (fun m => setProg_setProg msg msg pct pct m)

theorem handleMeetingCompleted_none (o : Oracles) (g : Option String)
    (st : State) : handleMeetingCompleted o none g st = st := rfl

theorem handleMeetingCompleted_idem {nid g : Option String} (o : Oracles)
    {st : State} (hnd : IdsNodup st) :
    handleMeetingCompleted o nid g (handleMeetingCompleted o nid g st) =
      handleMeetingCompleted o nid g st := by
  cases nid with
  | none => rfl
  | some n =>
    rw [handleMeetingCompleted_modifyFirstNid o g hnd]
    rw [handleMeetingCompleted_modifyFirstNid o g
      (idsNodup_modifyFirstNid (preservesId_hmcFun o g n) hnd)]
    exact modifyFirstNid_idem st (preservesNid_hmcFun o g n)
      (fun m => hmcFun_idem o g n m)

theorem handleMediaAvailable_none (o : Oracles) (g : Option String)
    (media : Option Media) (ms : Option String) (st : State) :
    handleMediaAvailable o none g media ms st = st := rfl

theorem handleMediaAvailable_idem {nid g : Option String} (o : Oracles)
    (media : Option Media) (ms : Option String) {st : State}
    (hnd : IdsNodup st) :
    handleMediaAvailable o nid g media ms
        (handleMediaAvailable o nid g media ms st) =
      handleMediaAvailable o nid g media ms st := by
  cases nid with
  | none => rfl
  | some n =>
    rw [handleMediaAvailable_modifyFirstNid o g media ms hnd]
    rw [handleMediaAvailable_modifyFirstNid o g media ms
      (idsNodup_modifyFirstNid (preservesId_mediaFun o g n media ms) hnd)]
    exact modifyFirstNid_idem st (preservesNid_mediaFun o g n media ms)
      (fun m => mediaFun_idem o g n media ms m)

theorem statusProgPair_idem {nid : Option String} {st : State}
    (hnd : IdsNodup st) (c msg : String) (pct : Nat) :
    updateProgressByNotetakerId nid msg pct
        (updateMeetingByNotetakerId nid { status := some c }
          (updateProgressByNotetakerId nid msg pct
            (updateMeetingByNotetakerId nid { status := some c } st))) =
      updateProgressByNotetakerId nid msg pct
        (updateMeetingByNotetakerId nid { status := some c } st) :=
  statusProg_idem hnd { status := some c } rfl rfl msg pct

/-- The sub-state transition pairs of `handleMeetingStateChange`
(state, status, message, percentage), for reasoning uniformly about the
table; faithfulness of each row to the source is witnessed by
`handleMeetingStateChange_known` being `rfl`. -/
def meetingStateRows : List (String × String × String × Nat) :=
  [("dispatched", "joining", "Notetaker dispatched. Preparing to join...", 25),
   ("waiting_for_entry", "joining", "Waiting to be admitted to meeting...", 30),
   ("recording_active", "recording", "In meeting. Recording...", 60),
   ("api_request", "processing", "Recording stopped. Processing...", 80),
   ("no_meeting_activity", "processing", "Meeting ended. Processing recording...", 80),
   ("no_participants", "processing", "Meeting ended. Processing recording...", 80),
   ("bad_meeting_code", "failed", "Failed to join: bad_meeting_code", 0),
   ("entry_denied", "failed", "Failed to join: entry_denied", 0),
   ("no_response", "failed", "Failed to join: no_response", 0),
   ("kicked", "failed", "Removed from meeting by participant", 0),
   ("internal_error", "failed", "Internal error occurred", 0)]

theorem handleMeetingStateChange_known (nid : Option String) (st : State) :
    ∀ row ∈ meetingStateRows,
      handleMeetingStateChange nid (some row.1) st =
        (match nid with
        | none => st
        | some _ =>
          updateProgressByNotetakerId nid row.2.2.1 row.2.2.2
            (updateMeetingByNotetakerId nid { status := some row.2.1 } st)) := by
  intro row hrow
  cases nid with
  | none =>
    fin_cases hrow <;> rfl
  | some n =>
    fin_cases hrow <;> rfl

theorem handleMeetingStateChange_default (nid ms : Option String) (st : State)
    (h : ∀ row ∈ meetingStateRows, ms ≠ some row.1) :
    handleMeetingStateChange nid ms st =
      (match nid with
      | none => st
      | some _ =>
        updateProgressByNotetakerId nid
          ("Meeting state: " ++ ms.getD "undefined") 50 st) := by
  cases nid with
  | none => rfl
  | some n =>
    simp only [meetingStateRows, List.mem_cons, List.not_mem_nil,
      forall_eq_or_imp] at h
    rw [handleMeetingStateChange.eq_def]
    split <;> simp_all

theorem handleMeetingStateChange_idem {nid ms : Option String} {st : State}
    (hnd : IdsNodup st) :
    handleMeetingStateChange nid ms (handleMeetingStateChange nid ms st) =
      handleMeetingStateChange nid ms st := by
  cases nid with
  | none => rfl
  | some n =>
    by_cases h1 : ms = some "dispatched"
    · rw [h1]
      simp only [handleMeetingStateChange, Option.some.injEq, String.reduceEq, reduceIte]
      exact statusProgPair_idem hnd _ _ _
    by_cases h2 : ms = some "waiting_for_entry"
    · rw [h2]
      simp only [handleMeetingStateChange, Option.some.injEq, String.reduceEq, reduceIte]
      exact statusProgPair_idem hnd _ _ _
    by_cases h3 : ms = some "recording_active"
    · rw [h3]
      simp only [handleMeetingStateChange, Option.some.injEq, String.reduceEq, reduceIte]
      exact statusProgPair_idem hnd _ _ _
    by_cases h4 : ms = some "api_request"
    · rw [h4]
      simp only [handleMeetingStateChange, Option.some.injEq, String.reduceEq, reduceIte]
      exact statusProgPair_idem hnd _ _ _
    by_cases h5 : ms = some "no_meeting_activity"
    · rw [h5]
      simp only [handleMeetingStateChange, Option.some.injEq, String.reduceEq, reduceIte]
      exact statusProgPair_idem hnd _ _ _
    by_cases h6 : ms = some "no_participants"
    · rw [h6]
      simp only [handleMeetingStateChange, Option.some.injEq, String.reduceEq, reduceIte]
      exact statusProgPair_idem hnd _ _ _
    by_cases h7 : ms = some "bad_meeting_code"
    · rw [h7]
      simp only [handleMeetingStateChange, Option.some.injEq, String.reduceEq, reduceIte]
      exact statusProgPair_idem hnd _ _ _
    by_cases h8 : ms = some "entry_denied"
    · rw [h8]
      simp only [handleMeetingStateChange, Option.some.injEq, String.reduceEq, reduceIte]
      exact statusProgPair_idem hnd _ _ _
    by_cases h9 : ms = some "no_response"
    · rw [h9]
      simp only [handleMeetingStateChange, Option.some.injEq, String.reduceEq, reduceIte]
      exact statusProgPair_idem hnd _ _ _
    by_cases h10 : ms = some "kicked"
    · rw [h10]
      simp only [handleMeetingStateChange, Option.some.injEq, String.reduceEq, reduceIte]
      exact statusProgPair_idem hnd _ _ _
    by_cases h11 : ms = some "internal_error"
    · rw [h11]
      simp only [handleMeetingStateChange, Option.some.injEq, String.reduceEq, reduceIte]
      exact statusProgPair_idem hnd _ _ _
    have hrows : ∀ row ∈ meetingStateRows, ms ≠ some row.1 := by
      intro row hrow
      fin_cases hrow <;> assumption
    rw [handleMeetingStateChange_default (some n) ms st hrows]
    rw [handleMeetingStateChange_default (some n) ms _ hrows]
    exact progOnly_idem hnd _ _

theorem handleNotetakerStatusUpdate_default (nid state : Option String)
    (st : State)
    (h1 : state ≠ some "scheduled") (h2 : state ≠ some "connecting")
    (h3 : state ≠ some "waiting_for_entry") (h4 : state ≠ some "attending")
    (h5 : state ≠ some "disconnected") (h6 : state ≠ some "failed_entry") :
    handleNotetakerStatusUpdate nid state st =
      (match nid with
      | none => st
      | some _ =>
        updateProgressByNotetakerId nid
          ("Status: " ++ state.getD "undefined") 50 st) := by
  cases nid with
  | none => rfl
  | some n =>
    rw [handleNotetakerStatusUpdate.eq_def]
    split <;> simp_all

theorem handleNotetakerStatusUpdate_idem {nid state : Option String}
    {st : State} (hnd : IdsNodup st) :
    handleNotetakerStatusUpdate nid state
        (handleNotetakerStatusUpdate nid state st) =
      handleNotetakerStatusUpdate nid state st := by
  cases nid with
  | none => rfl
  | some n =>
    by_cases h1 : state = some "scheduled"
    · rw [h1]
      simp only [handleNotetakerStatusUpdate, Option.some.injEq, String.reduceEq, reduceIte]
      exact statusProgPair_idem hnd _ _ _
    by_cases h2 : state = some "connecting"
    · rw [h2]
      simp only [handleNotetakerStatusUpdate, Option.some.injEq, String.reduceEq, reduceIte]
      exact statusProgPair_idem hnd _ _ _
    by_cases h3 : state = some "waiting_for_entry"
    · rw [h3]
      simp only [handleNotetakerStatusUpdate, Option.some.injEq, String.reduceEq, reduceIte]
      exact statusProgPair_idem hnd _ _ _
    by_cases h4 : state = some "attending"
    · rw [h4]
      simp only [handleNotetakerStatusUpdate, Option.some.injEq, String.reduceEq, reduceIte]
      exact statusProgPair_idem hnd _ _ _
    by_cases h5 : state = some "disconnected"
    · rw [h5]
      simp only [handleNotetakerStatusUpdate, Option.some.injEq, String.reduceEq, reduceIte]
      exact statusProgPair_idem hnd _ _ _
    by_cases h6 : state = some "failed_entry"
    · rw [h6]
      simp only [handleNotetakerStatusUpdate, Option.some.injEq, String.reduceEq, reduceIte]
      exact statusProgPair_idem hnd _ _ _
    rw [handleNotetakerStatusUpdate_default (some n) state st h1 h2 h3 h4 h5 h6]
    rw [handleNotetakerStatusUpdate_default (some n) state _ h1 h2 h3 h4 h5 h6]
    exact progOnly_idem hnd _ _

/-- Replaying any webhook event other than a creation event is harmless: the
second application of the same event is a no-op on the store. -/
theorem processWebhookEvent_idem (o : Oracles) (ev : Event) (st : State)
    (hnd : IdsNodup st) (hne : ev.type ≠ "notetaker.created") :
    processWebhookEvent o ev (processWebhookEvent o ev st) =
      processWebhookEvent o ev st := by
  rcases ev with ⟨ty, d⟩
  simp only at hne
  by_cases h2 : ty = "notetaker.meeting_state"
  · subst h2
    simp only [processWebhookEvent_meeting_state]
    exact handleMeetingStateChange_idem hnd
  by_cases h3 : ty = "notetaker.media"
  · subst h3
    simp only [processWebhookEvent_media]
    exact handleMediaAvailable_idem o _ _ hnd
  by_cases h4 : ty = "notetaker.updated"
  · subst h4
    simp only [processWebhookEvent_updated]
    exact handleNotetakerStatusUpdate_idem hnd
  by_cases h5 : ty = "notetaker.deleted"
  · subst h5
    simp only [processWebhookEvent_deleted]
    exact statusProgPair_idem hnd _ _ _
  by_cases h6 : ty = "notetaker.joined"
  · subst h6
    simp only [processWebhookEvent_joined]
    exact statusProgPair_idem hnd _ _ _
  by_cases h7 : ty = "notetaker.recording"
  · subst h7
    simp only [processWebhookEvent_recording]
    exact statusProgPair_idem hnd _ _ _
  by_cases h8 : ty = "notetaker.completed"
  · subst h8
    simp only [processWebhookEvent_completed]
    exact handleMeetingCompleted_idem o hnd
  by_cases h9 : ty = "notetaker.failed"
  · subst h9
    simp only [processWebhookEvent_failed]
    exact statusProgPair_idem hnd _ _ _
  rw [processWebhookEvent_unknown o ⟨ty, d⟩ st hne h2 h3 h4 h5 h6 h7 h8 h9]
  rw [processWebhookEvent_unknown o ⟨ty, d⟩ st hne h2 h3 h4 h5 h6 h7 h8 h9]

/-! ### Store-effect lemmas for the claim proofs -/

theorem getMeeting_updateMeeting_self {i : String} {st : State} {m : Meeting}
    (h : getMeeting i st = some m) (u : Updates) :
    getMeeting i (updateMeeting i u st).2 = some (mergeUpd m u) := by
  rw [updateMeeting, h]
  have hid : (mergeUpd m u).id = i := by
    rw [mergeUpd_id]
    exact getMeeting_found_id h
  rw [← hid]
  exact getMeeting_setMeeting_self (mergeUpd m u) st

theorem getMeeting_updateMeeting_other {i j : String} {st : State}
    (hne : j ≠ i) (u : Updates) :
    getMeeting i (updateMeeting j u st).2 = getMeeting i st := by
  rw [updateMeeting]
  cases h : getMeeting j st with
  | none => rfl
  | some m =>
    dsimp only
    apply getMeeting_setMeeting_other
    rw [mergeUpd_id]
    rw [getMeeting_found_id h]
    exact hne

theorem getMeeting_updateProgress_self {i : String} {st : State} {m : Meeting}
    (h : getMeeting i st = some m) (msg : String) (pct : Nat) :
    getMeeting i (updateProgress i msg pct st) = some (setProg msg pct m) := by
  rw [updateProgress, h]
  have hid : (setProg msg pct m).id = i := by
    rw [setProg_id]
    exact getMeeting_found_id h
  rw [← hid]
  exact getMeeting_setMeeting_self (setProg msg pct m) st

theorem getMeeting_updateProgress_other {i j : String} {st : State}
    (hne : j ≠ i) (msg : String) (pct : Nat) :
    getMeeting i (updateProgress j msg pct st) = getMeeting i st := by
  rw [updateProgress]
  cases h : getMeeting j st with
  | none => rfl
  | some m =>
    apply getMeeting_setMeeting_other
    rw [setProg_id]
    rw [getMeeting_found_id h]
    exact hne

/-- Progress updates never touch the bot id of any record. -/
theorem nid_after_updateProgressByNid (nid : Option String) (msg : String)
    (pct : Nat) (st : State) (i : String) :
    (getMeeting i (updateProgressByNotetakerId nid msg pct st)).map
        Meeting.notetakerId =
      (getMeeting i st).map Meeting.notetakerId := by
  cases nid with
  | none => rfl
  | some n =>
    rw [updateProgressByNotetakerId]
    cases hf : findByNotetakerId n st with
    | none => rfl
    | some mm =>
      dsimp only
      by_cases hi : mm.id = i
      · subst hi
        cases hgp : getMeeting mm.id st with
        | none => simp [updateProgress, hgp]
        | some m' =>
          rw [getMeeting_updateProgress_self hgp]
          rfl
      · rw [getMeeting_updateProgress_other hi]

/-- Core of claim C2 for `updateMeetingByNotetakerId`: when the updates set
the bot id to the id used for resolution, no record's non-null bot id is
replaced. -/
theorem botId_preserved_updateByNid {st : State} {n : String} {u : Updates}
    {i v : String} (hnd : IdsNodup st) (hun : u.notetakerId = some n)
    (hv : (getMeeting i st).map Meeting.notetakerId = some (some v)) :
    (getMeeting i (updateMeetingByNotetakerId (some n) u st)).map
        Meeting.notetakerId = some (some v) := by
  cases hgm : getMeeting i st with
  | none => rw [hgm] at hv; cases hv
  | some m =>
    rw [hgm] at hv
    have hmv : m.notetakerId = some v := by
      simpa using hv
    rw [updateMeetingByNotetakerId]
    cases hf : findByNotetakerId n st with
    | some mm =>
      dsimp only
      by_cases hi : mm.id = i
      · have hgmm : getMeeting i st = some mm := by
          rw [← hi]
          exact getMeeting_of_mem hnd (findByNotetakerId_mem hf)
        have hmmeq : m = mm := by
          rw [hgmm] at hgm
          injection hgm with he
          exact he.symm
        have hvn : v = n := by
          have h1 := findByNotetakerId_found_nid hf
          rw [← hmmeq, hmv] at h1
          injection h1
        rw [← hi] at hgmm ⊢
        rw [getMeeting_updateMeeting_self hgmm u]
        simp [mergeUpd, hun, hvn]
      · rw [getMeeting_updateMeeting_other hi u, hgm]
        simp [hmv]
    | none =>
      rw [hun]
      cases hg : u.grantId with
      | none =>
        dsimp only
        rw [hgm]
        simp [hmv]
      | some g =>
        dsimp only
        cases hc : st.find? (fun x => x.notetakerId == none && x.grantId == g) with
        | none =>
          rw [hgm]
          simp [hmv]
        | some mg =>
          dsimp only
          have hmgn : mg.notetakerId = none := by
            have := List.find?_some hc
            simp only [Bool.and_eq_true, beq_iff_eq] at this
            exact this.1
          by_cases hi : mg.id = i
          · have hgmg : getMeeting i st = some mg := by
              rw [← hi]
              exact getMeeting_of_mem hnd (List.mem_of_find?_eq_some hc)
            rw [hgmg] at hgm
            injection hgm with he
            rw [← he, hmgn] at hmv
            cases hmv
          · rw [getMeeting_updateMeeting_other hi u, hgm]
            simp [hmv]

/-- Core of claim C2 for `notetaker.created` events: processing a creation
event never replaces an already-assigned bot id. -/
theorem botId_preserved_created {o : Oracles} {d : EventData} {st : State}
    {i v : String} (hnd : IdsNodup st)
    (hv : (getMeeting i st).map Meeting.notetakerId = some (some v)) :
    (getMeeting i (processWebhookEvent o ⟨"notetaker.created", d⟩ st)).map
        Meeting.notetakerId = some (some v) := by
  cases hgm : getMeeting i st with
  | none => rw [hgm] at hv; cases hv
  | some m =>
    rw [hgm] at hv
    have hmv : m.notetakerId = some v := by simpa using hv
    rw [processWebhookEvent_created]
    cases hnid : evNotetakerId d with
    | none => rw [hgm]; simp [hmv]
    | some nid =>
      dsimp only
      have hfall :
          (getMeeting i
            (updateProgressByNotetakerId (some nid)
              "Notetaker created. Waiting to join meeting..." 20
              (updateMeetingByNotetakerId (some nid)
                { status := some "joining", notetakerId := some nid } st))).map
            Meeting.notetakerId = some (some v) := by
        rw [nid_after_updateProgressByNid]
        exact botId_preserved_updateByNid hnd rfl (by rw [hgm]; simpa using hv)
      have hcaseA : ∀ meeting : Meeting, meeting ∈ st →
          meeting.notetakerId = none →
          (getMeeting i
            (updateProgress meeting.id "Notetaker created. Waiting to join meeting..." 20
              (updateMeeting meeting.id
                { status := some "joining", notetakerId := some nid } st).2)).map
            Meeting.notetakerId = some (some v) := by
        intro meeting hmem hnone
        by_cases hmi : meeting.id = i
        · have hgmeet : getMeeting i st = some meeting := by
            rw [← hmi]
            exact getMeeting_of_mem hnd hmem
          rw [hgmeet] at hgm
          injection hgm with he
          rw [← he, hnone] at hmv
          cases hmv
        · rw [getMeeting_updateProgress_other hmi,
            getMeeting_updateMeeting_other hmi, hgm]
          simp [hmv]
      have hcaseB : ∀ meeting : Meeting, meeting ∈ st →
          meeting.notetakerId = some nid →
          (getMeeting i
            (updateProgress meeting.id "Notetaker created. Waiting to join meeting..." 20
              (updateMeeting meeting.id
                { status := some "joining", notetakerId := some nid } st).2)).map
            Meeting.notetakerId = some (some v) := by
        intro meeting hmem hsome
        by_cases hmi : meeting.id = i
        · have hgmeet : getMeeting i st = some meeting := by
            rw [← hmi]
            exact getMeeting_of_mem hnd hmem
          rw [hgmeet] at hgm
          injection hgm with he
          have hvn : v = nid := by
            rw [he, hmv] at hsome
            injection hsome
          rw [hmi]
          rw [getMeeting_updateProgress_self
            (getMeeting_updateMeeting_self hgmeet
              { status := some "joining", notetakerId := some nid })]
          simp [mergeUpd, setProg, hvn]
        · rw [getMeeting_updateProgress_other hmi,
            getMeeting_updateMeeting_other hmi, hgm]
          simp [hmv]
      cases hcomb : ((match evGrantId d with
          | some g =>
            (getAllMeetings st).find?
              (fun m => m.notetakerId == none && m.grantId == g)
          | none => none) <|>
        (getAllMeetings st).find? (fun m => m.notetakerId == some nid)) with
      | none =>
        exact hfall
      | some meeting =>
        have hmem2 : meeting ∈ st ∧
            (meeting.notetakerId = none ∨ meeting.notetakerId = some nid) := by
          rcases (Option.orElse_eq_some _ _ _).mp hcomb with h1 | ⟨_, h2⟩
          · cases hg : evGrantId d with
            | none => rw [hg] at h1; cases h1
            | some g =>
              rw [hg] at h1
              dsimp only at h1
              refine ⟨List.mem_of_find?_eq_some h1, Or.inl ?_⟩
              have := List.find?_some h1
              simp only [Bool.and_eq_true, beq_iff_eq] at this
              exact this.1
          · refine ⟨List.mem_of_find?_eq_some h2, Or.inr ?_⟩
            have := List.find?_some h2
            simpa using this
        rcases hmem2 with ⟨hmem, hnone | hsome⟩
        · exact hcaseA meeting hmem hnone
        · exact hcaseB meeting hmem hsome

/-! ### Concrete fixtures for counterexamples and witnesses -/

/-- An oracle environment in which every network call fails (dispatch
transcript fetch rejected, media download throwing). -/
def failingOracles : Oracles :=
  { fetchTranscriptUrl := fun _ => .error ()
    getTranscript := fun _ _ => .error () }

/-- A session that has already reached the terminal status `completed`. -/
def exCompleted : Meeting :=
  { id := "m1"
    meetingUrl := "https://meet.google.com/abc-defg-hij"
    grantId := "g1"
    status := "completed"
    createdAt := 1
    notetakerId := some "bot1"
    progress := ⟨"Note generated successfully!", 100⟩ }

/-- A `notetaker.deleted` lifecycle event for bot `bot1`. -/
def exDeletedEvent : Event :=
  { type := "notetaker.deleted", data := { flat := { id := some "bot1" } } }

/-- A pending session of account `g1` with no bot assigned. -/
def exPending (i : String) (t : Nat) : Meeting :=
  { id := i
    meetingUrl := "https://meet.google.com/abc-defg-hij"
    grantId := "g1"
    status := "pending"
    createdAt := t
    progress := ⟨"Meeting link added. Waiting to join...", 0⟩ }

/-- A `notetaker.created` event carrying bot id `bot1` and account id `g1`. -/
def exCreatedEvent : Event :=
  { type := "notetaker.created"
    data := { flat := { id := some "bot1", grant_id := some "g1" } } }

/-- An event whose type is outside the reducer's vocabulary. -/
def exBogusEvent : Event :=
  { type := "bogus.type", data := { flat := { id := some "bot1" } } }

/-- A session in `processing` with a bot assigned and no note yet. -/
def exProcessing : Meeting :=
  { id := "m9"
    meetingUrl := "https://meet.google.com/abc-defg-hij"
    grantId := "g1"
    status := "processing"
    createdAt := 3
    notetakerId := some "bot9"
    progress := ⟨"Disconnected. Processing recording...", 80⟩ }

/-- A media-available event for bot `bot9` whose payload carries a `media`
object with a null transcript reference. -/
def exMediaNoTranscript : Event :=
  { type := "notetaker.media"
    data := { flat := { id := some "bot9", state := some "available",
                        media := some { transcript := none } } } }

/-! ### Claim theorems -/

/-- C1 (code bug evidence): terminal statuses are not sticky in the webhook
reducer.  A session whose status is the terminal `completed` is moved to
`failed` by a later `notetaker.deleted` lifecycle event, because
`updateMeetingByNotetakerId` applies the transition table unconditionally —
contradicting the specified invariant that `completed`/`failed` are
terminal. -/
theorem c1_terminal_status_overwritten :
    (getMeeting "m1" [exCompleted]).map Meeting.status = some "completed" ∧
    (getMeeting "m1"
        (processWebhookEvent failingOracles exDeletedEvent [exCompleted])).map
      Meeting.status = some "failed" := by
  constructor <;> rfl

/-- C2: once a session's bot id is set to a non-null value, no later
creation-type event replaces it with a different value — neither a
`notetaker.created` event processed by the reducer (first conjunct) nor a
direct `updateMeetingByNotetakerId` call whose updates carry the resolution
bot id (second conjunct).  The value is preserved exactly. -/
theorem c2_botId_never_overwritten :
    (∀ (o : Oracles) (ev : Event) (st : State) (i v : String),
      IdsNodup st → ev.type = "notetaker.created" →
      (getMeeting i st).map Meeting.notetakerId = some (some v) →
      (getMeeting i (processWebhookEvent o ev st)).map Meeting.notetakerId =
        some (some v)) ∧
    (∀ (st : State) (n : String) (u : Updates) (i v : String),
      IdsNodup st → u.notetakerId = some n →
      (getMeeting i st).map Meeting.notetakerId = some (some v) →
      (getMeeting i (updateMeetingByNotetakerId (some n) u st)).map
        Meeting.notetakerId = some (some v)) := by
  constructor
  · intro o ev st i v hnd htype hv
    rcases ev with ⟨ty, d⟩
    simp only at htype
    subst htype
    exact botId_preserved_created hnd hv
  · intro st n u i v hnd hun hv
    exact botId_preserved_updateByNid hnd hun hv

/-- Witness for C2: a store holding a session already linked to `bot1`
keeps that bot id when a fresh `notetaker.created` event for the same
account arrives. -/
theorem c2_botId_never_overwritten_witness :
    IdsNodup [exCompleted] ∧
    (getMeeting "m1" [exCompleted]).map Meeting.notetakerId =
      some (some "bot1") ∧
    (getMeeting "m1"
        (processWebhookEvent failingOracles exCreatedEvent [exCompleted])).map
      Meeting.notetakerId = some (some "bot1") :=
  ⟨by decide, by decide,
    c2_botId_never_overwritten.1 failingOracles exCreatedEvent [exCompleted]
      "m1" "bot1" (by decide) rfl (by decide)⟩

/-- In a store listed most-recent-first (the database ordering), the first
match of any predicate has the maximal creation time among all matches. -/
theorem sortedDesc_find?_max {st : State} {p : Meeting → Bool} {m : Meeting}
    (hs : List.Sorted createdDesc st) (hf : st.find? p = some m) :
    ∀ x ∈ st, p x → x.createdAt ≤ m.createdAt := by
  induction st with
  | nil => cases hf
  | cons hd tl ih =>
    rw [List.sorted_cons] at hs
    intro x hx hpx
    rw [List.find?_cons] at hf
    cases hph : p hd with
    | true =>
      rw [hph] at hf
      injection hf with he
      subst he
      rcases List.mem_cons.mp hx with h | h
      · subst h; exact Nat.le_refl _
      · exact hs.1 x h
    | false =>
      rw [hph] at hf
      rcases List.mem_cons.mp hx with h | h
      · subst h
        rw [hph] at hpx
        cases hpx
      · exact ih hs.2 hf x h hpx

/-- C3 counterexample: the in-memory store lists sessions in creation order
(oldest first), so with two unassigned candidates of the same account the
creation event is resolved to the OLDEST session (`m1`), not the most
recently created one (`m2`) as the claim states. -/
theorem c3_resolution_oldest_wins_cex :
    (exPending "m1" 1).createdAt < (exPending "m2" 2).createdAt ∧
    (getMeeting "m1"
        (processWebhookEvent failingOracles exCreatedEvent
          [exPending "m1" 1, exPending "m2" 2])).map Meeting.notetakerId =
      some (some "bot1") ∧
    (getMeeting "m2"
        (processWebhookEvent failingOracles exCreatedEvent
          [exPending "m1" 1, exPending "m2" 2])).map Meeting.notetakerId =
      some none := by
  refine ⟨by decide, by decide, by decide⟩

/-- C3 (amended): an account-only creation event resolves to the FIRST
candidate in store order — the session the store lists first among those of
that account with unset bot id.  That session alone receives the bot id,
`joining` status and progress update (first conjunct, with all other
records untouched); under the database-backed store, which lists sessions
most-recent-first, the first candidate is the most recently created one
(second conjunct), matching the claim only there. -/
theorem c3_resolution_first_candidate :
    (∀ (o : Oracles) (d : EventData) (st : State) (n g : String) (m : Meeting),
      IdsNodup st → evNotetakerId d = some n → evGrantId d = some g →
      st.find? (fun x => x.notetakerId == none && x.grantId == g) = some m →
      getMeeting m.id (processWebhookEvent o ⟨"notetaker.created", d⟩ st) =
        some (setProg "Notetaker created. Waiting to join meeting..." 20
          (mergeUpd m { status := some "joining", notetakerId := some n })) ∧
      ∀ j, j ≠ m.id →
        getMeeting j (processWebhookEvent o ⟨"notetaker.created", d⟩ st) =
          getMeeting j st) ∧
    (∀ (st : State) (g : String) (m : Meeting),
      List.Sorted createdDesc st →
      st.find? (fun x => x.notetakerId == none && x.grantId == g) = some m →
      ∀ x ∈ st, x.notetakerId = none → x.grantId = g →
        x.createdAt ≤ m.createdAt) := by
  constructor
  · intro o d st n g m hnd hn hg hfind
    rw [processWebhookEvent_created, hn]
    dsimp only
    rw [hg]
    dsimp only [getAllMeetings]
    rw [hfind]
    rw [Option.some_orElse]
    dsimp only
    have hgm : getMeeting m.id st = some m :=
      getMeeting_of_mem hnd (List.mem_of_find?_eq_some hfind)
    constructor
    · rw [getMeeting_updateProgress_self
        (getMeeting_updateMeeting_self hgm
          { status := some "joining", notetakerId := some n })]
    · intro j hj
      rw [getMeeting_updateProgress_other (fun he => hj he.symm),
        getMeeting_updateMeeting_other (fun he => hj he.symm)]
  · intro st g m hs hfind x hx h1 h2
    exact sortedDesc_find?_max hs hfind x hx (by simp [h1, h2])

/-- Witness for C3 (amended): in the two-candidate store the first candidate
`m1` is resolved and updated, `m2` untouched; and in the DESC-ordered store
`[m2, m1]` the first candidate `m2` is the most recent. -/
theorem c3_resolution_first_candidate_witness :
    (IdsNodup [exPending "m1" 1, exPending "m2" 2] ∧
      getMeeting "m1"
          (processWebhookEvent failingOracles exCreatedEvent
            [exPending "m1" 1, exPending "m2" 2]) =
        some (setProg "Notetaker created. Waiting to join meeting..." 20
          (mergeUpd (exPending "m1" 1)
            { status := some "joining", notetakerId := some "bot1" }))) ∧
    (List.Sorted createdDesc [exPending "m2" 2, exPending "m1" 1] ∧
      (exPending "m1" 1).createdAt ≤ (exPending "m2" 2).createdAt) := by
  constructor
  · refine ⟨by decide, ?_⟩
    have h := (c3_resolution_first_candidate.1 failingOracles
      exCreatedEvent.data [exPending "m1" 1, exPending "m2" 2] "bot1" "g1"
      (exPending "m1" 1) (by decide) rfl rfl (by decide)).1
    exact h
  · refine ⟨by decide, ?_⟩
    exact c3_resolution_first_candidate.2
      [exPending "m2" 2, exPending "m1" 1] "g1" (exPending "m2" 2)
      (by decide) (by decide) (exPending "m1" 1) (by decide) rfl rfl

/-- C4 counterexample: applying the identical `notetaker.created` event
twice is NOT the same as applying it once.  With two unassigned candidate
sessions for the account, the second application links the second candidate
(`m2`) to the same bot as well, because the first candidate no longer has an
unset bot id. -/
theorem c4_idempotence_cex :
    (getMeeting "m2"
        (processWebhookEvent failingOracles exCreatedEvent
          [exPending "m1" 1, exPending "m2" 2])).map Meeting.notetakerId =
      some none ∧
    (getMeeting "m2"
        (processWebhookEvent failingOracles exCreatedEvent
          (processWebhookEvent failingOracles exCreatedEvent
            [exPending "m1" 1, exPending "m2" 2]))).map Meeting.notetakerId =
      some (some "bot1") ∧
    processWebhookEvent failingOracles exCreatedEvent
        (processWebhookEvent failingOracles exCreatedEvent
          [exPending "m1" 1, exPending "m2" 2]) ≠
      processWebhookEvent failingOracles exCreatedEvent
        [exPending "m1" 1, exPending "m2" 2] := by
  refine ⟨by decide, by decide, by decide⟩

/-- C4 (amended): for every store with distinct session ids and every
webhook event that is not a creation event, applying the identical event
twice yields the same final store as applying it once.  (Creation events
are idempotent only when at most one session of the account lacks a bot
id; see the counterexample.) -/
theorem c4_replay_idempotent :
    ∀ (o : Oracles) (ev : Event) (st : State),
      IdsNodup st → ev.type ≠ "notetaker.created" →
      processWebhookEvent o ev (processWebhookEvent o ev st) =
        processWebhookEvent o ev st :=
  fun o ev st hnd hne => processWebhookEvent_idem o ev st hnd hne

/-- Witness for C4 (amended): replaying a `notetaker.deleted` event on a
one-session store is a no-op the second time. -/
theorem c4_replay_idempotent_witness :
    IdsNodup [exCompleted] ∧ exDeletedEvent.type ≠ "notetaker.created" ∧
    processWebhookEvent failingOracles exDeletedEvent
        (processWebhookEvent failingOracles exDeletedEvent [exCompleted]) =
      processWebhookEvent failingOracles exDeletedEvent [exCompleted] :=
  ⟨by decide, by decide,
    c4_replay_idempotent failingOracles exDeletedEvent [exCompleted]
      (by decide) (by decide)⟩

/-- C8 counterexample: an unknown event type does NOT record a progress
message containing the raw type string — the reducer leaves the store
completely unchanged (the raw type is only written to the server log). -/
theorem c8_unknown_type_cex :
    processWebhookEvent failingOracles exBogusEvent [exCompleted] =
      [exCompleted] ∧
    (getMeeting "m1"
        (processWebhookEvent failingOracles exBogusEvent [exCompleted])).map
      (fun m => strContains m.progress.message exBogusEvent.type) =
      some false := by
  refine ⟨rfl, by decide⟩

/-- C8 (amended): for every event whose type is outside the reducer's
vocabulary, no session's status (or any other field) changes and the
reducer returns normally — the store is left exactly as it was; no progress
message is recorded. -/
theorem c8_unknown_event_noop :
    ∀ (o : Oracles) (ev : Event) (st : State),
      ev.type ≠ "notetaker.created" →
      ev.type ≠ "notetaker.meeting_state" →
      ev.type ≠ "notetaker.media" →
      ev.type ≠ "notetaker.updated" →
      ev.type ≠ "notetaker.deleted" →
      ev.type ≠ "notetaker.joined" →
      ev.type ≠ "notetaker.recording" →
      ev.type ≠ "notetaker.completed" →
      ev.type ≠ "notetaker.failed" →
      processWebhookEvent o ev st = st :=
  fun o ev st h1 h2 h3 h4 h5 h6 h7 h8 h9 =>
    processWebhookEvent_unknown o ev st h1 h2 h3 h4 h5 h6 h7 h8 h9

/-- Witness for C8 (amended): the concrete unknown event leaves the store
unchanged. -/
theorem c8_unknown_event_noop_witness :
    exBogusEvent.type ≠ "notetaker.created" ∧
    processWebhookEvent failingOracles exBogusEvent [exCompleted] =
      [exCompleted] :=
  ⟨by decide,
    c8_unknown_event_noop failingOracles exBogusEvent [exCompleted]
      (by decide) (by decide) (by decide) (by decide) (by decide) (by decide)
      (by decide) (by decide) (by decide)⟩

/-- C10: updating or progressing an id that is not in the store returns
`null`/nothing and leaves every stored record untouched — no record is
created or modified for an unknown id. -/
theorem c10_unknown_id_noop :
    ∀ (st : State) (i : String) (u : Updates) (msg : String) (pct : Nat),
      getMeeting i st = none →
      (updateMeeting i u st).1 = none ∧ (updateMeeting i u st).2 = st ∧
      updateProgress i msg pct st = st := by
  intro st i u msg pct h
  refine ⟨?_, ?_, ?_⟩ <;> simp [updateMeeting, updateProgress, h]

/-- Witness for C10 at a concrete store and unknown id. -/
theorem c10_unknown_id_noop_witness :
    getMeeting "missing" [exCompleted] = none ∧
    (updateMeeting "missing" { status := some "failed" } [exCompleted]).2 =
      [exCompleted] ∧
    updateProgress "missing" "x" 0 [exCompleted] = [exCompleted] :=
  ⟨by decide,
    (c10_unknown_id_noop [exCompleted] "missing" { status := some "failed" }
      "x" 0 (by decide)).2.1,
    (c10_unknown_id_noop [exCompleted] "missing" { status := some "failed" }
      "x" 0 (by decide)).2.2⟩

/-- C5: a media-available event with no transcript reference whose
compensating dispatch-client fetch also fails leaves the resolved session's
status untouched (it stays `processing`), leaves its note unset, and
records the note-generation error in the progress message at 0%. -/
theorem c5_media_fallback_failure :
    ∀ (o : Oracles) (d : EventData) (st : State) (n : String) (m : Meeting),
      IdsNodup st →
      evNotetakerId d = some n →
      ((notetakerData d).state <|> d.flat.state) = some "available" →
      (((notetakerData d).media <|> d.flat.media) >>= Media.transcript) = none →
      o.getTranscript (evGrantId d) n = .error () →
      findByNotetakerId n st = some m →
      m.status = "processing" → m.note = none →
      ∃ m', getMeeting m.id
          (processWebhookEvent o ⟨"notetaker.media", d⟩ st) = some m' ∧
        m'.status = "processing" ∧ m'.note = none ∧
        m'.progress = ⟨"Error generating note", 0⟩ := by
  intro o d st n m hnd hn hms hmedia horacle hfind hstatus hnote
  rw [processWebhookEvent_media, hn, hms]
  rw [handleMediaAvailable_modifyFirstNid o (evGrantId d) _ _ hnd]
  refine ⟨mediaFun o (evGrantId d) n
    ((notetakerData d).media <|> d.flat.media) (some "available") m, ?_, ?_⟩
  · exact getMeeting_modifyFirstNid_self hnd hfind
      (preservesId_mediaFun o (evGrantId d) n _ _)
  · have hfun : mediaFun o (evGrantId d) n
        ((notetakerData d).media <|> d.flat.media) (some "available") m =
        setProg "Error generating note" 0
          (setProg "Meeting completed. Generating note..." 90
            (setProg "Media files available. Generating note..." 90 m)) := by
      cases hmed : ((notetakerData d).media <|> d.flat.media) with
      | none => simp [mediaFun, hmcFun, horacle]
      | some mv =>
        have htr : mv.transcript = none := by
          rw [hmed] at hmedia
          simpa using hmedia
        simp [mediaFun, hmcFun, htr, horacle]
    rw [hfun]
    simp [setProg, hstatus, hnote]

/-- Witness for C5: a `processing` session with bot `bot9`, a media event
with a null transcript reference, and a failing dispatch client. -/
theorem c5_media_fallback_failure_witness :
    IdsNodup [exProcessing] ∧
    findByNotetakerId "bot9" [exProcessing] = some exProcessing ∧
    (∃ m', getMeeting "m9"
        (processWebhookEvent failingOracles exMediaNoTranscript
          [exProcessing]) = some m' ∧
      m'.status = "processing" ∧ m'.note = none ∧
      m'.progress = ⟨"Error generating note", 0⟩) :=
  ⟨by decide, by decide,
    c5_media_fallback_failure failingOracles exMediaNoTranscript.data
      [exProcessing] "bot9" exProcessing (by decide) rfl rfl rfl rfl
      (by decide) rfl rfl⟩

/-- C6: when validation passes (`meetingUrl` and `grantId` present, URL of
the supported meeting-link shape), session creation answers 201 even when
bot dispatch throws; the stored session is transitioned to `failed` and its
progress message carries the dispatch error, instead of the create call
being rejected. -/
theorem c6_create_survives_dispatch_failure :
    ∀ (msg freshId : String) (now : Nat) (req : AddMeetingReq) (st : State),
      jsFalsyStr req.meetingUrl = false →
      jsFalsyStr req.grantId = false →
      (strContains (req.meetingUrl.getD "") "meet.google.com" ||
        strContains (req.meetingUrl.getD "") "meet/") = true →
      (addMeeting (.error msg) freshId now req st).1.statusCode = 201 ∧
      ∃ m', getMeeting freshId
          (addMeeting (.error msg) freshId now req st).2 = some m' ∧
        m'.status = "failed" ∧ m'.progress = ⟨"Error: " ++ msg, 0⟩ := by
  intro msg freshId now req st h1 h2 hval
  have hval' : (!strContains (req.meetingUrl.getD "") "meet.google.com" &&
      !strContains (req.meetingUrl.getD "") "meet/") = false := by
    cases hA : strContains (req.meetingUrl.getD "") "meet.google.com" <;>
      cases hB : strContains (req.meetingUrl.getD "") "meet/" <;> simp_all
  have hid : (createMeeting (req.meetingUrl.getD "") (req.grantId.getD "")
      freshId now).id = freshId := rfl
  have hg0 : getMeeting freshId
      (setMeeting (createMeeting (req.meetingUrl.getD "") (req.grantId.getD "")
        freshId now) st) =
      some (createMeeting (req.meetingUrl.getD "") (req.grantId.getD "")
        freshId now) := by
    rw [← hid]
    exact getMeeting_setMeeting_self _ st
  constructor
  · simp [addMeeting, h1, h2, hval']
  · refine ⟨setProg ("Error: " ++ msg) 0
      (mergeUpd (createMeeting (req.meetingUrl.getD "") (req.grantId.getD "")
        freshId now) { status := some "failed" }), ?_, rfl, rfl⟩
    simp only [addMeeting, h1, h2, hval', Bool.false_eq_true, if_false]
    rw [hid]
    rw [getMeeting_updateProgress_self
      (getMeeting_updateMeeting_self hg0 { status := some "failed" })]

/-- Witness for C6: a valid request whose dispatch fails with "boom". -/
theorem c6_create_survives_dispatch_failure_witness :
    jsFalsyStr (AddMeetingReq.mk (some "https://meet.google.com/abc-defg-hij")
      (some "acct1")).meetingUrl = false ∧
    (addMeeting (.error "boom") "meeting_1" 7
        ⟨some "https://meet.google.com/abc-defg-hij", some "acct1"⟩
        []).1.statusCode = 201 ∧
    (∃ m', getMeeting "meeting_1"
        (addMeeting (.error "boom") "meeting_1" 7
          ⟨some "https://meet.google.com/abc-defg-hij", some "acct1"⟩ []).2 =
        some m' ∧
      m'.status = "failed" ∧ m'.progress = ⟨"Error: " ++ "boom", 0⟩) :=
  ⟨by decide,
    (c6_create_survives_dispatch_failure "boom" "meeting_1" 7
      ⟨some "https://meet.google.com/abc-defg-hij", some "acct1"⟩ []
      (by decide) (by decide) (by decide)).1,
    (c6_create_survives_dispatch_failure "boom" "meeting_1" 7
      ⟨some "https://meet.google.com/abc-defg-hij", some "acct1"⟩ []
      (by decide) (by decide) (by decide)).2⟩

/-- C7 counterexample: the in-memory `getAllMeetings` returns the stored
list in insertion (creation) order, oldest first — for a store created in
order `m1` (older) then `m2` (newer) the returned sequence is NOT
most-recent-first. -/
theorem c7_memory_order_cex :
    getAllMeetings [exPending "m1" 1, exPending "m2" 2] =
      [exPending "m1" 1, exPending "m2" 2] ∧
    ¬ List.Sorted createdDesc
        (getAllMeetings [exPending "m1" 1, exPending "m2" 2]) := by
  refine ⟨rfl, ?_⟩
  intro hs
  rw [getAllMeetings, List.sorted_cons] at hs
  have := hs.1 (exPending "m2" 2) (by simp)
  simp [createdDesc, exPending] at this

/-- C7 (amended): the in-memory store returns sessions exactly in stored
(creation) order, oldest first, with no reordering; only the
database-backed store (`ORDER BY created_at DESC`) returns them most
recent first. -/
theorem c7_list_ordering :
    (∀ st : State, getAllMeetings st = st) ∧
    (∀ rows : List Meeting, List.Sorted createdDesc (dbGetAllMeetings rows)) := by
  constructor
  · intro st
    rfl
  · intro rows
    exact List.sorted_insertionSort createdDesc rows

/-! ### C9: key-point extraction of the basic note generator -/

theorem charOfNat_ne_qmark {n : Nat} (h1 : 97 ≤ n) (h2 : n ≤ 122) :
    Char.ofNat n ≠ '?' := by
  intro he
  have hv : n.isValidChar := Or.inl (by omega)
  rw [Char.ofNat, dif_pos hv] at he
  have hn := congrArg Char.toNat he
  have h63 : Char.toNat '?' = 63 := rfl
  rw [h63] at hn
  simp only [Char.toNat, Char.ofNatAux, UInt32.toNat, BitVec.toNat_ofNatLt] at hn
  omega

/-- Lower-casing never produces a question mark from another character. -/
theorem jsToLower_ne_qmark {c : Char} (h : c ≠ '?') : jsToLower c ≠ '?' := by
  rw [jsToLower]
  split
  · next hc => exact charOfNat_ne_qmark (by omega) (by omega)
  · exact h

theorem splitSingle_ne_nil (p : Char → Bool) (l : List Char) :
    splitSingle p l ≠ [] := by
  cases l with
  | nil => simp [splitSingle]
  | cons c rest =>
    rw [splitSingle]
    by_cases h : p c
    · simp [h]
    · simp only [h]
      cases hs : splitSingle p rest <;> simp

/-- Every piece produced by the single-character split is free of delimiter
characters. -/
theorem splitSingle_no_delim (p : Char → Bool) :
    ∀ (l : List Char), ∀ piece ∈ splitSingle p l, ∀ c ∈ piece, p c = false := by
  intro l
  induction l with
  | nil =>
    intro piece hp c hc
    simp [splitSingle] at hp
    subst hp
    cases hc
  | cons a rest ih =>
    intro piece hp c hc
    rw [splitSingle] at hp
    by_cases ha : p a
    · simp only [ha, if_pos] at hp
      rcases List.mem_cons.mp hp with h | h
      · subst h; cases hc
      · exact ih piece h c hc
    · simp only [ha] at hp
      rw [if_neg (by simp [ha])] at hp
      cases hs : splitSingle p rest with
      | nil => exact absurd hs (splitSingle_ne_nil p rest)
      | cons hd tl =>
        rw [hs] at hp
        rcases List.mem_cons.mp hp with h | h
        · subst h
          rcases List.mem_cons.mp hc with h' | h'
          · subst h'
            simpa using ha
          · exact ih hd (by rw [hs]; exact List.mem_cons_self hd tl) c h'
        · exact ih piece (by rw [hs]; exact List.mem_cons.mpr (Or.inr h)) c hc

theorem dropInnerEmptyAux_sub :
    ∀ (l : List (List Char)) (x : List Char), x ∈ dropInnerEmptyAux l → x ∈ l := by
  intro l
  induction l with
  | nil => intro x hx; cases hx
  | cons a rest ih =>
    intro x hx
    cases rest with
    | nil => simpa [dropInnerEmptyAux] using hx
    | cons b t =>
      have heq : dropInnerEmptyAux (a :: b :: t) =
          if a.isEmpty then dropInnerEmptyAux (b :: t)
          else a :: dropInnerEmptyAux (b :: t) := rfl
      rw [heq] at hx
      by_cases ha : a.isEmpty
      · rw [if_pos ha] at hx
        exact List.mem_cons.mpr (Or.inr (ih x hx))
      · rw [if_neg ha] at hx
        rcases List.mem_cons.mp hx with h | h
        · rw [h]
          exact List.mem_cons_self _ _
        · exact List.mem_cons.mpr (Or.inr (ih x h))

theorem dropInnerEmpty_sub (l : List (List Char)) (x : List Char)
    (hx : x ∈ dropInnerEmpty l) : x ∈ l := by
  cases l with
  | nil => cases hx
  | cons a rest =>
    rw [dropInnerEmpty] at hx
    rcases List.mem_cons.mp hx with h | h
    · rw [h]
      exact List.mem_cons_self _ _
    · exact List.mem_cons.mpr (Or.inr (dropInnerEmptyAux_sub rest x h))

theorem jsSplit_no_delim (p : Char → Bool) (s : List Char) :
    ∀ piece ∈ jsSplit p s, ∀ c ∈ piece, p c = false := by
  intro piece hp c hc
  exact splitSingle_no_delim p s piece (dropInnerEmpty_sub _ piece hp) c hc

theorem listContains_single_eq_false {s : List Char} {x : Char}
    (h : ∀ c ∈ s, c ≠ x) : listContains s [x] = false := by
  induction s with
  | nil => rfl
  | cons a rest ih =>
    rw [listContains]
    have ha : (a == x) = false := by
      simpa using h a (List.mem_cons_self a rest)
    rw [listStartsWith, ha]
    simp only [Bool.false_and, Bool.false_or]
    exact ih (fun c hc => h c (List.mem_cons.mpr (Or.inr hc)))

/-- The key-point trigger as the amended claim reads: keyword containment
only.  (The source's additional question-mark test can never fire on a
piece of the sentence split, which is the content of
`keypointPred_eq_keyword`.) -/
def specKeywordPred (s : List Char) : Bool :=
  let lower := s.map jsToLower
  listContains lower "important".toList ||
    listContains lower "action".toList ||
    listContains lower "decision".toList ||
    listContains lower "next".toList

/-- On any piece of the sentence split the source's trigger predicate
coincides with pure keyword containment: splitting removed every `?`. -/
theorem keypointPred_eq_keyword {fullText : List Char} {s : List Char}
    (hs : s ∈ jsSplit isSentenceDelim fullText) :
    keypointPred s = specKeywordPred s := by
  have hnoq : ∀ c ∈ s.map jsToLower, c ≠ '?' := by
    intro c hc
    rcases List.mem_map.mp hc with ⟨c0, hc0, hlow⟩
    have : isSentenceDelim c0 = false :=
      jsSplit_no_delim isSentenceDelim fullText s hs c0 hc0
    have hq : c0 ≠ '?' := by
      intro he
      rw [he] at this
      simp [isSentenceDelim] at this
    rw [← hlow]
    exact jsToLower_ne_qmark hq
  have hzero : listContains (s.map jsToLower) "?".toList = false :=
    listContains_single_eq_false hnoq
  rw [keypointPred, specKeywordPred]
  rw [hzero]
  rw [Bool.false_or]

/-- A transcript consisting of a single question sentence. -/
def exQuestionTranscript : Transcript :=
  { transcript :=
      [{ speaker := some "Alice"
         text := some "Could you review the budget for tomorrow?".toList }] }

/-- C9 counterexample: the question-terminated sentence of length > 20 is
NOT selected as a key point — the split removes the terminating question
mark, so `includes` on the sentence never sees one and the generator falls
back to the placeholder. -/
theorem c9_question_sentence_cex :
    "Could you review the budget for tomorrow".toList ∈
      sentencesOf (fullTextOf exQuestionTranscript.transcript) ∧
    (generateBasicNote exQuestionTranscript).keyPoints =
      ["No specific key points identified.".toList] ∧
    "Could you review the budget for tomorrow".toList ∉
      (generateBasicNote exQuestionTranscript).keyPoints := by
  refine ⟨by decide, by decide, by decide⟩

/-- C9 (amended): for every non-empty transcript the basic strategy selects
as key points exactly the split sentences of trimmed length > 20 that
contain one of the keywords `important`, `action`, `decision`, `next`
(case-insensitive), capped at 5 and trimmed — with a fixed placeholder when
none match.  The question-mark trigger of the source is vacuous, so a
question-terminated sentence is selected only if it also contains a
keyword. -/
theorem c9_basic_keypoints :
    ∀ t : Transcript, t.transcript ≠ [] →
      (generateBasicNote t).keyPoints =
        (if ((((sentencesOf (fullTextOf t.transcript)).filter
              specKeywordPred).take 5).map jsTrim).isEmpty then
          ["No specific key points identified.".toList]
        else
          (((sentencesOf (fullTextOf t.transcript)).filter
            specKeywordPred).take 5).map jsTrim) := by
  intro t ht
  have hfe : (sentencesOf (fullTextOf t.transcript)).filter keypointPred =
      (sentencesOf (fullTextOf t.transcript)).filter specKeywordPred := by
    apply List.filter_congr
    intro s hs
    have : s ∈ jsSplit isSentenceDelim (fullTextOf t.transcript) :=
      List.mem_of_mem_filter hs
    exact keypointPred_eq_keyword this
  rw [generateBasicNote]
  rw [if_neg (by simpa using ht)]
  simp only [hfe]

/-- Witness for C9 (amended): a transcript with one keyword sentence and
one plain sentence selects exactly the keyword sentence. -/
theorem c9_basic_keypoints_witness :
    exQuestionTranscript.transcript ≠ [] ∧
    (generateBasicNote exQuestionTranscript).keyPoints =
      (if ((((sentencesOf (fullTextOf exQuestionTranscript.transcript)).filter
            specKeywordPred).take 5).map jsTrim).isEmpty then
        ["No specific key points identified.".toList]
      else
        (((sentencesOf (fullTextOf exQuestionTranscript.transcript)).filter
          specKeywordPred).take 5).map jsTrim) :=
  ⟨by decide, c9_basic_keypoints exQuestionTranscript (by decide)⟩
